import Mathlib

/-!
Shallow embedding of the stock-reservation backend (NestJS + TypeORM).

The repository contains two variants of the `ReservationsService` class:
one in `src/reservations/reservations.service.ts` (namespace
`ReservationsService` below; this is the variant wired to the HTTP
controller), and a second copy embedded in the `src/products/products.service.ts`
source file (namespace `ReservationsServiceB` below).  They differ materially
only in `completeReservation`; `expireReservation` exists only in the second
copy, and the periodic sweep lives in `ReservationsCleanupService`.

Modelling conventions:
- Generated uuid primary keys become `Nat` drawn from a `nextId` counter.
- `Date` values become `Nat` millisecond timestamps; each operation receives
  the current time `now` as a parameter (the source reads `Date.now()` /
  `new Date()` during the call).
- `dataSource.transaction(cb)` semantics: if the callback throws, every write
  made through the transaction's manager is rolled back.  The embedding
  therefore returns `Except`: an `Except.error` result carries no state, and
  the committed state is the caller's unchanged pre-state.  In particular,
  writes performed before a `throw` inside the same callback never commit.
- `bull.Queue.add` may fail (infrastructure); since the call is awaited
  inside the transaction callback, its failure aborts the transaction.  The
  `queueFails` flag of `createReservationQ` models that failure mode;
  `createReservation` is the failure-free run.
- Columns never read by the reservation operations (`name`, `price`,
  `createdAt`/`updatedAt` of `Product`) are omitted; they are only written at
  seed time and play no role in any claim.
-/

inductive ReservationStatus where
  | ACTIVE
  | COMPLETED
  | EXPIRED
deriving DecidableEq, Repr

/-- The `Product` entity: uuid primary key and `availableStock` int column. -/
structure Product where
  id : Nat
  availableStock : Int
deriving DecidableEq, Repr

/-- The `Reservation` entity. -/
structure Reservation where
  id : Nat
  productId : Nat
  userId : String
  quantity : Int
  status : ReservationStatus
  createdAt : Nat
  expiresAt : Nat
deriving DecidableEq, Repr

/-- The two relational tables plus the uuid generator for reservation rows. -/
structure DB where
  products : List Product
  reservations : List Reservation
  nextId : Nat
deriving DecidableEq, Repr

/-- Errors thrown by the services: `BadRequestException`,
`NotFoundException`, and infrastructure errors (a failing queue `add`). -/
inductive SvcError where
  | BadRequest (msg : String)
  | NotFound (msg : String)
  | Infra (msg : String)
deriving DecidableEq, Repr

/-- Point lookup `WHERE p.id = :id` (first row with the id). -/
def lookupProduct : List Product → Nat → Option Product
  | [], _ => none
  | p :: ps, pid => if p.id = pid then some p else lookupProduct ps pid

/-- Point lookup `WHERE r.id = :id`. -/
def lookupReservation : List Reservation → Nat → Option Reservation
  | [], _ => none
  | r :: rs, i => if r.id = i then some r else lookupReservation rs i

/-- Lookup `WHERE userId = :u AND productId = :p AND status = ACTIVE`. -/
def lookupActive : List Reservation → String → Nat → Option Reservation
  | [], _, _ => none
  | r :: rs, u, pid =>
    if r.userId = u ∧ r.productId = pid ∧ r.status = ReservationStatus.ACTIVE
    then some r else lookupActive rs u pid

/-- `productRepo.save(p)`: update-by-primary-key. -/
def saveProduct (db : DB) (p : Product) : DB :=
  { db with products := db.products.map (fun q => if q.id = p.id then p else q) }

/-- `reservationRepo.save(r)`: update-by-primary-key. -/
def saveReservation (db : DB) (r : Reservation) : DB :=
  { db with reservations :=
      db.reservations.map (fun x => if x.id = r.id then r else x) }

/-- The stock-release block shared by `cancelReservation`,
`expireReservation`, the expired-on-read branch of the second
`completeReservation` and (per iteration) the sweep:
`findOneBy({id}); if (product) { availableStock += qty; save(product) }` —
a missing product is tolerated as a no-op. -/
def releaseStock (db : DB) (pid : Nat) (q : Int) : DB :=
  match lookupProduct db.products pid with
  | some p => saveProduct db { p with availableStock := p.availableStock + q }
  | none => db

/-- The bulk `UPDATE reservation SET expiresAt = :e WHERE userId = :u AND
status = ACTIVE` statement run at the end of `createReservation`. -/
def renewAllActive (db : DB) (u : String) (newExp : Nat) : DB :=
  { db with reservations := db.reservations.map (fun r =>
      if r.userId = u ∧ r.status = ReservationStatus.ACTIVE
      then { r with expiresAt := newExp } else r) }

/-- The 2-minute reservation TTL, in milliseconds (`2 * 60 * 1000`). -/
def TTL : Nat := 120000

namespace ReservationsService

/-- `ReservationsService.createReservation` from
`src/reservations/reservations.service.ts`, with the queue `add` outcome
made explicit: `queueFails = true` models the awaited
`reservationsQueue.add('expire-reservation', ...)` call (made only on the
new-reservation branch in this variant) rejecting, which aborts the
enclosing transaction and rolls back the stock deduction and the insert. -/
def createReservationQ (queueFails : Bool) (db : DB) (userId : String)
    (productId : Nat) (quantity : Int) (now : Nat) :
    Except SvcError (Reservation × DB) :=
  if quantity ≤ 0 then
    Except.error (SvcError.BadRequest "Quantity must be > 0")
  else
    match lookupProduct db.products productId with
    | none => Except.error (SvcError.NotFound "Product not found")
    | some product =>
      if product.availableStock < quantity then
        Except.error (SvcError.BadRequest "Not enough stock")
      else
        let db1 := saveProduct db
          { product with availableStock := product.availableStock - quantity }
        let newExpiresAt := now + TTL
        match lookupActive db1.reservations userId productId with
        | some existing =>
          let merged := { existing with
            quantity := existing.quantity + quantity,
            expiresAt := newExpiresAt }
          let db2 := saveReservation db1 merged
          Except.ok (merged, renewAllActive db2 userId newExpiresAt)
        | none =>
          let created : Reservation :=
            { id := db1.nextId, productId := productId, userId := userId,
              quantity := quantity, status := ReservationStatus.ACTIVE,
              createdAt := now, expiresAt := newExpiresAt }
          let db2 : DB :=
            { db1 with reservations := db1.reservations ++ [created],
                       nextId := db1.nextId + 1 }
          if queueFails then
            -- the awaited queue.add rejects inside the transaction callback:
            -- the whole transaction (stock deduction + insert) rolls back
            Except.error (SvcError.Infra "Failed to enqueue expiration job")
          else
            Except.ok (created, renewAllActive db2 userId newExpiresAt)

/-- The failure-free run of `createReservation`. -/
def createReservation (db : DB) (userId : String) (productId : Nat)
    (quantity : Int) (now : Nat) : Except SvcError (Reservation × DB) :=
  createReservationQ false db userId productId quantity now

/-- `ReservationsService.completeReservation` from
`src/reservations/reservations.service.ts`.  On the expired-on-read branch
the source restores stock, marks the row EXPIRED, saves both, and then
throws `BadRequestException('Reservation already expired')` — still inside
the `dataSource.transaction` callback, so those writes are rolled back and
the committed state is unchanged; the embedding returns the bare error. -/
def completeReservation (db : DB) (id : Nat) (now : Nat) :
    Except SvcError (Reservation × DB) :=
  match lookupReservation db.reservations id with
  | none => Except.error (SvcError.NotFound "Reservation not found")
  | some r =>
    if r.status = ReservationStatus.COMPLETED then
      Except.ok (r, db)
    else if r.expiresAt ≤ now ∨ r.status = ReservationStatus.EXPIRED then
      Except.error (SvcError.BadRequest "Reservation already expired")
    else
      let r' := { r with status := ReservationStatus.COMPLETED }
      Except.ok (r', saveReservation db r')

/-- `ReservationsService.cancelReservation` from
`src/reservations/reservations.service.ts`. -/
def cancelReservation (db : DB) (id : Nat) (now : Nat) :
    Except SvcError (Reservation × DB) :=
  match lookupReservation db.reservations id with
  | none => Except.error (SvcError.NotFound "Reservation not found")
  | some r =>
    if r.status ≠ ReservationStatus.ACTIVE then
      Except.ok (r, db)
    else
      let db1 := releaseStock db r.productId r.quantity
      let r' := { r with status := ReservationStatus.EXPIRED, expiresAt := now }
      Except.ok (r', saveReservation db1 r')

end ReservationsService

namespace ReservationsServiceB

/-- `completeReservation` of the second `ReservationsService` copy (the one
in the `src/products/products.service.ts` source file).  Unlike the variant
above, its expired-on-read branch commits the stock restore and the EXPIRED
transition and returns the saved row as a success. -/
def completeReservation (db : DB) (id : Nat) (now : Nat) :
    Except SvcError (Reservation × DB) :=
  match lookupReservation db.reservations id with
  | none => Except.error (SvcError.NotFound "Reservation not found")
  | some r =>
    if r.status = ReservationStatus.COMPLETED then
      Except.ok (r, db)
    else if r.status = ReservationStatus.EXPIRED then
      Except.error (SvcError.BadRequest "Reservation already expired")
    else if r.expiresAt ≤ now then
      let db1 := releaseStock db r.productId r.quantity
      let r' := { r with status := ReservationStatus.EXPIRED, expiresAt := now }
      Except.ok (r', saveReservation db1 r')
    else
      let r' := { r with status := ReservationStatus.COMPLETED }
      Except.ok (r', saveReservation db r')

/-- `expireReservation` (only present in the second `ReservationsService`
copy; the Bull job processor delegates to it).  Returns the reservation the
source returns (`null` when absent) together with the committed state. -/
def expireReservation (db : DB) (id : Nat) (now : Nat) :
    Option Reservation × DB :=
  match lookupReservation db.reservations id with
  | none => (none, db)
  | some r =>
    if r.status ≠ ReservationStatus.ACTIVE then
      (some r, db)
    else if now < r.expiresAt then
      -- `existing.expiresAt > new Date()`: stale timer event, discarded
      (some r, db)
    else
      let db1 := releaseStock db r.productId r.quantity
      let r' := { r with status := ReservationStatus.EXPIRED, expiresAt := now }
      (some r', saveReservation db1 r')

end ReservationsServiceB

namespace ReservationsCleanupService

/-- The `getMany` snapshot of the sweep: every ACTIVE row with
`expiresAt <= now`. -/
def overdue (db : DB) (now : Nat) : List Reservation :=
  db.reservations.filter (fun r =>
    r.status = ReservationStatus.ACTIVE ∧ r.expiresAt ≤ now)

/-- One loop iteration of the sweep: look the product up in the current
transaction state; skip the row if the product is missing; otherwise restore
stock and mark the row EXPIRED (the sweep does not touch `expiresAt`). -/
def sweepStep (db : DB) (res : Reservation) : DB :=
  match lookupProduct db.products res.productId with
  | none => db
  | some p =>
    let db1 := saveProduct db
      { p with availableStock := p.availableStock + res.quantity }
    saveReservation db1 { res with status := ReservationStatus.EXPIRED }

/-- The sweep loop with an injected failure model: a `save` for a
reservation whose id is in `failIds` throws, and `none` signals that the
single enclosing transaction aborts. -/
def sweepGo (failIds : List Nat) : List Reservation → DB → Option DB
  | [], db => some db
  | res :: rest, db =>
    match lookupProduct db.products res.productId with
    | none => sweepGo failIds rest db
    | some p =>
      if res.id ∈ failIds then none
      else
        sweepGo failIds rest
          (saveReservation
            (saveProduct db
              { p with availableStock := p.availableStock + res.quantity })
            { res with status := ReservationStatus.EXPIRED })

/-- `ReservationsCleanupService.expireOverdueReservations` (the 10-second
cron sweep) with the failure model: the whole pass runs in ONE
`dataSource.transaction`, so a throw while processing any row rolls back
every write of the pass. -/
def expireOverdueReservationsF (failIds : List Nat) (db : DB) (now : Nat) : DB :=
  match sweepGo failIds (overdue db now) db with
  | some db' => db'
  | none => db

/-- The failure-free sweep pass. -/
def expireOverdueReservations (db : DB) (now : Nat) : DB :=
  expireOverdueReservationsF [] db now

end ReservationsCleanupService

/-- One committed state transition of the system: any successful
`createReservation` (with either queue outcome), `completeReservation` or
`cancelReservation` of the controller-wired service, any `expireReservation`
run, or any sweep pass.  Calls that end in an error commit nothing (the
transaction rolls back), so they leave the state unchanged and need no
constructor. -/
inductive Step : DB → DB → Prop where
  | create (qf : Bool) (u : String) (p : Nat) (q : Int) (now : Nat)
      (r : Reservation) (db db' : DB)
      (h : ReservationsService.createReservationQ qf db u p q now =
        Except.ok (r, db')) : Step db db'
  | complete (i now : Nat) (r : Reservation) (db db' : DB)
      (h : ReservationsService.completeReservation db i now =
        Except.ok (r, db')) : Step db db'
  | cancel (i now : Nat) (r : Reservation) (db db' : DB)
      (h : ReservationsService.cancelReservation db i now =
        Except.ok (r, db')) : Step db db'
  | expire (i now : Nat) (db : DB) :
      Step db (ReservationsServiceB.expireReservation db i now).2
  | sweep (now : Nat) (db : DB) :
      Step db (ReservationsCleanupService.expireOverdueReservations db now)

/-- Committed states reachable by any sequence of operations. -/
def Reachable : DB → DB → Prop := Relation.ReflTransGen Step

/-- Well-formedness maintained by the store: primary keys are unique and the
uuid generator never re-issues an id already present. -/
def WFdb (db : DB) : Prop :=
  (db.products.map Product.id).Nodup ∧
  (db.reservations.map Reservation.id).Nodup ∧
  ∀ i ∈ db.reservations.map Reservation.id, i < db.nextId

instance (db : DB) : Decidable (WFdb db) := by
  unfold WFdb; infer_instance

/-- Sum of a per-reservation contribution over a table. -/
def sumBy (g : Reservation → Int) : List Reservation → Int
  | [] => 0
  | r :: rest => g r + sumBy g rest

/-- The `quantity` a reservation contributes to the reserved total of the
given product (its quantity when it is an ACTIVE row of that product). -/
def contribActive (pid : Nat) (r : Reservation) : Int :=
  if r.productId = pid ∧ r.status = ReservationStatus.ACTIVE
  then r.quantity else 0

/-- The `quantity` a reservation contributes to the sold total of the given
product (its quantity when it is a COMPLETED row of that product). -/
def contribCompleted (pid : Nat) (r : Reservation) : Int :=
  if r.productId = pid ∧ r.status = ReservationStatus.COMPLETED
  then r.quantity else 0

/-- Sum of `quantity` over ACTIVE reservations of the given product. -/
def activeSum (pid : Nat) (l : List Reservation) : Int :=
  sumBy (contribActive pid) l

/-- Sum of `quantity` over COMPLETED reservations of the given product. -/
def completedSum (pid : Nat) (l : List Reservation) : Int :=
  sumBy (contribCompleted pid) l

/-- The available stock recorded for a product id (0 when absent). -/
def stockOf (db : DB) (pid : Nat) : Int :=
  match lookupProduct db.products pid with
  | some p => p.availableStock
  | none => 0

/-- Free + reserved + sold stock of one product. -/
def ledger (db : DB) (pid : Nat) : Int :=
  stockOf db pid + activeSum pid db.reservations + completedSum pid db.reservations

/-- Two reservation rows do not both hold an ACTIVE reservation for the
same (userId, productId) pair. -/
def NoDupActivePair (r1 r2 : Reservation) : Prop :=
  ¬(r1.userId = r2.userId ∧ r1.productId = r2.productId ∧
    r1.status = ReservationStatus.ACTIVE ∧
    r2.status = ReservationStatus.ACTIVE)

instance : DecidableRel NoDupActivePair := fun r1 r2 => by
  unfold NoDupActivePair; infer_instance

/-- At most one ACTIVE reservation row per (userId, productId) pair. -/
def atMostOneActive (db : DB) : Prop :=
  List.Pairwise NoDupActivePair db.reservations

instance (db : DB) : Decidable (atMostOneActive db) := by
  unfold atMostOneActive; infer_instance

/-! ### Lookup, update and sum lemmas -/

theorem lookupProduct_mem {l : List Product} {pid : Nat} {p : Product}
    (h : lookupProduct l pid = some p) : p ∈ l ∧ p.id = pid := by
  induction l with
  | nil => simp [lookupProduct] at h
  | cons q qs ih =>
    by_cases hq : q.id = pid
    · simp only [lookupProduct, if_pos hq, Option.some.injEq] at h
      exact ⟨by simp [← h], h ▸ hq⟩
    · simp only [lookupProduct, if_neg hq] at h
      rcases ih h with ⟨hmem, hid⟩
      exact ⟨List.mem_cons_of_mem _ hmem, hid⟩

theorem lookupProduct_self {l : List Product}
    (hnd : (l.map Product.id).Nodup) {p : Product} (hp : p ∈ l) :
    lookupProduct l p.id = some p := by
  induction l with
  | nil => cases hp
  | cons q qs ih =>
    simp only [List.map_cons, List.nodup_cons] at hnd
    rcases List.mem_cons.1 hp with h | h
    · subst h; simp [lookupProduct]
    · have hne : q.id ≠ p.id := by
        intro he
        exact hnd.1 (he ▸ (List.mem_map_of_mem Product.id h))
      simp only [lookupProduct, if_neg hne]
      exact ih hnd.2 h

theorem lookupProduct_eq_none {l : List Product} {pid : Nat} :
    lookupProduct l pid = none ↔ pid ∉ l.map Product.id := by
  induction l with
  | nil => simp [lookupProduct]
  | cons q qs ih =>
    by_cases hq : q.id = pid
    · simp [lookupProduct, hq]
    · simp [lookupProduct, hq, ih, Ne.symm hq]

theorem lookupReservation_mem {l : List Reservation} {i : Nat} {r : Reservation}
    (h : lookupReservation l i = some r) : r ∈ l ∧ r.id = i := by
  induction l with
  | nil => simp [lookupReservation] at h
  | cons x xs ih =>
    by_cases hx : x.id = i
    · simp only [lookupReservation, if_pos hx, Option.some.injEq] at h
      exact ⟨by simp [← h], h ▸ hx⟩
    · simp only [lookupReservation, if_neg hx] at h
      rcases ih h with ⟨hmem, hid⟩
      exact ⟨List.mem_cons_of_mem _ hmem, hid⟩

theorem lookupReservation_self {l : List Reservation}
    (hnd : (l.map Reservation.id).Nodup) {r : Reservation} (hr : r ∈ l) :
    lookupReservation l r.id = some r := by
  induction l with
  | nil => cases hr
  | cons x xs ih =>
    simp only [List.map_cons, List.nodup_cons] at hnd
    rcases List.mem_cons.1 hr with h | h
    · subst h; simp [lookupReservation]
    · have hne : x.id ≠ r.id := by
        intro he
        exact hnd.1 (he ▸ (List.mem_map_of_mem Reservation.id h))
      simp only [lookupReservation, if_neg hne]
      exact ih hnd.2 h

theorem lookupActive_mem {l : List Reservation} {u : String} {pid : Nat}
    {r : Reservation} (h : lookupActive l u pid = some r) :
    r ∈ l ∧ r.userId = u ∧ r.productId = pid ∧
      r.status = ReservationStatus.ACTIVE := by
  induction l with
  | nil => simp [lookupActive] at h
  | cons x xs ih =>
    by_cases hx : x.userId = u ∧ x.productId = pid ∧
        x.status = ReservationStatus.ACTIVE
    · simp only [lookupActive, if_pos hx, Option.some.injEq] at h
      subst h; exact ⟨List.mem_cons_self _ _, hx⟩
    · simp only [lookupActive, if_neg hx] at h
      rcases ih h with ⟨hmem, hrest⟩
      exact ⟨List.mem_cons_of_mem _ hmem, hrest⟩

theorem lookupActive_eq_none {l : List Reservation} {u : String} {pid : Nat}
    (h : lookupActive l u pid = none) :
    ∀ r ∈ l, ¬(r.userId = u ∧ r.productId = pid ∧
      r.status = ReservationStatus.ACTIVE) := by
  induction l with
  | nil => intro r hr; cases hr
  | cons x xs ih =>
    by_cases hx : x.userId = u ∧ x.productId = pid ∧
        x.status = ReservationStatus.ACTIVE
    · simp [lookupActive, hx] at h
    · simp only [lookupActive, if_neg hx] at h
      intro r hr
      rcases List.mem_cons.1 hr with h' | h'
      · subst h'; exact hx
      · exact ih h r h'

theorem lookupReservation_map {f : Reservation → Reservation}
    (hf : ∀ x, (f x).id = x.id) (l : List Reservation) (i : Nat) :
    lookupReservation (l.map f) i = (lookupReservation l i).map f := by
  induction l with
  | nil => simp [lookupReservation]
  | cons x xs ih =>
    by_cases hx : x.id = i
    · simp [lookupReservation, hf x, hx]
    · simp [lookupReservation, hf x, hx, ih]

theorem lookupProduct_map {f : Product → Product}
    (hf : ∀ x, (f x).id = x.id) (l : List Product) (pid : Nat) :
    lookupProduct (l.map f) pid = (lookupProduct l pid).map f := by
  induction l with
  | nil => simp [lookupProduct]
  | cons x xs ih =>
    by_cases hx : x.id = pid
    · simp [lookupProduct, hf x, hx]
    · simp [lookupProduct, hf x, hx, ih]

theorem lookupReservation_append_left {l l2 : List Reservation} {i : Nat}
    {r : Reservation} (h : lookupReservation l i = some r) :
    lookupReservation (l ++ l2) i = some r := by
  induction l with
  | nil => simp [lookupReservation] at h
  | cons x xs ih =>
    by_cases hx : x.id = i
    · simp only [lookupReservation, if_pos hx] at h ⊢; exact h
    · simp only [lookupReservation, if_neg hx] at h ⊢
      exact ih h

theorem lookupReservation_append_right {l l2 : List Reservation} {i : Nat}
    (h : ∀ x ∈ l, x.id ≠ i) :
    lookupReservation (l ++ l2) i = lookupReservation l2 i := by
  induction l with
  | nil => simp
  | cons x xs ih =>
    have hx : x.id ≠ i := h x (List.mem_cons_self _ _)
    simp only [List.cons_append, lookupReservation, if_neg hx]
    exact ih (fun y hy => h y (List.mem_cons_of_mem _ hy))

theorem map_ids_of_id_preserving {f : Reservation → Reservation}
    (hf : ∀ x, (f x).id = x.id) (l : List Reservation) :
    (l.map f).map Reservation.id = l.map Reservation.id := by
  induction l with
  | nil => rfl
  | cons x xs ih => simp [hf x, ih]

theorem map_pids_of_id_preserving {f : Product → Product}
    (hf : ∀ x, (f x).id = x.id) (l : List Product) :
    (l.map f).map Product.id = l.map Product.id := by
  induction l with
  | nil => rfl
  | cons x xs ih => simp [hf x, ih]

theorem sumBy_append (g : Reservation → Int) (l : List Reservation)
    (a : Reservation) : sumBy g (l ++ [a]) = sumBy g l + g a := by
  induction l with
  | nil => simp [sumBy]
  | cons x xs ih => simp [sumBy, ih]; ring

theorem sumBy_map_congr {g : Reservation → Int} {f : Reservation → Reservation}
    {l : List Reservation} (h : ∀ x ∈ l, g (f x) = g x) :
    sumBy g (l.map f) = sumBy g l := by
  induction l with
  | nil => rfl
  | cons x xs ih =>
    simp only [List.map_cons, sumBy]
    rw [h x (List.mem_cons_self _ _),
        ih (fun y hy => h y (List.mem_cons_of_mem _ hy))]

theorem sumBy_replace (g : Reservation → Int) {l : List Reservation}
    (hnd : (l.map Reservation.id).Nodup) {r : Reservation} (hr : r ∈ l)
    {r' : Reservation} (hid : r'.id = r.id) :
    sumBy g (l.map fun x => if x.id = r'.id then r' else x) =
      sumBy g l - g r + g r' := by
  induction l with
  | nil => cases hr
  | cons x xs ih =>
    simp only [List.map_cons, List.nodup_cons] at hnd
    rcases List.mem_cons.1 hr with h | h
    · subst h
      have hx : r.id = r'.id := hid.symm
      simp only [List.map_cons, sumBy, if_pos hx]
      have htail : sumBy g (xs.map fun x => if x.id = r'.id then r' else x) =
          sumBy g xs := by
        refine sumBy_map_congr (fun y hy => ?_)
        have hne : y.id ≠ r'.id := by
          intro he
          exact hnd.1 (List.mem_map.2 ⟨y, hy, he.trans hid⟩)
        simp [hne]
      rw [htail]; ring
    · have hxne : x.id ≠ r'.id := by
        intro he
        exact hnd.1 (he ▸ hid ▸ (List.mem_map_of_mem Reservation.id h))
      simp only [List.map_cons, sumBy, if_neg hxne]
      rw [ih hnd.2 h]; ring

/-! ### Projection lemmas -/

@[simp] theorem saveProduct_reservations (db : DB) (p : Product) :
    (saveProduct db p).reservations = db.reservations := rfl

@[simp] theorem saveProduct_nextId (db : DB) (p : Product) :
    (saveProduct db p).nextId = db.nextId := rfl

@[simp] theorem saveReservation_products (db : DB) (r : Reservation) :
    (saveReservation db r).products = db.products := rfl

@[simp] theorem saveReservation_nextId (db : DB) (r : Reservation) :
    (saveReservation db r).nextId = db.nextId := rfl

@[simp] theorem renewAllActive_products (db : DB) (u : String) (e : Nat) :
    (renewAllActive db u e).products = db.products := rfl

@[simp] theorem renewAllActive_nextId (db : DB) (u : String) (e : Nat) :
    (renewAllActive db u e).nextId = db.nextId := rfl

@[simp] theorem releaseStock_reservations (db : DB) (pid : Nat) (q : Int) :
    (releaseStock db pid q).reservations = db.reservations := by
  unfold releaseStock
  cases lookupProduct db.products pid <;> rfl

@[simp] theorem releaseStock_nextId (db : DB) (pid : Nat) (q : Int) :
    (releaseStock db pid q).nextId = db.nextId := by
  unfold releaseStock
  cases lookupProduct db.products pid <;> rfl

theorem releaseStock_pids (db : DB) (pid : Nat) (q : Int) :
    (releaseStock db pid q).products.map Product.id =
      db.products.map Product.id := by
  unfold releaseStock
  cases h : lookupProduct db.products pid with
  | none => rfl
  | some p =>
    simp only [saveProduct]
    exact map_pids_of_id_preserving
      (by intro x; by_cases hx : x.id = p.id <;> simp [hx]) _

/-! ### Behavioural characterizations of the operations -/

theorem createQ_ok {qf : Bool} {db : DB} {u : String} {pid : Nat} {q : Int}
    {now : Nat} {r : Reservation} {db' : DB}
    (h : ReservationsService.createReservationQ qf db u pid q now =
      Except.ok (r, db')) :
    ∃ product, lookupProduct db.products pid = some product ∧ 0 < q ∧
      q ≤ product.availableStock ∧
      ((∃ e, lookupActive db.reservations u pid = some e ∧
          r = { e with quantity := e.quantity + q, expiresAt := now + TTL } ∧
          db' = renewAllActive
            (saveReservation
              (saveProduct db
                { product with availableStock := product.availableStock - q })
              r)
            u (now + TTL)) ∨
       (lookupActive db.reservations u pid = none ∧ qf = false ∧
          r = { id := db.nextId, productId := pid, userId := u, quantity := q,
                status := ReservationStatus.ACTIVE, createdAt := now,
                expiresAt := now + TTL } ∧
          db' = renewAllActive
            { products := (saveProduct db
                { product with
                  availableStock := product.availableStock - q }).products,
              reservations := db.reservations ++ [r],
              nextId := db.nextId + 1 }
            u (now + TTL))) := by
  by_cases h0 : q ≤ 0
  · simp [ReservationsService.createReservationQ, h0] at h
  · cases hp : lookupProduct db.products pid with
    | none => simp [ReservationsService.createReservationQ, h0, hp] at h
    | some product =>
      by_cases hs : product.availableStock < q
      · simp [ReservationsService.createReservationQ, h0, hp, hs] at h
      · cases he : lookupActive db.reservations u pid with
        | some e =>
          simp only [ReservationsService.createReservationQ, if_neg h0, hp,
            if_neg hs, saveProduct_reservations, he, Except.ok.injEq,
            Prod.mk.injEq] at h
          obtain ⟨h1, h2⟩ := h
          refine ⟨product, rfl, by omega, by omega, Or.inl ⟨e, rfl, h1.symm, ?_⟩⟩
          rw [← h2, ← h1]
        | none =>
          cases qf with
          | true =>
            simp [ReservationsService.createReservationQ, h0, hp, hs, he] at h
          | false =>
            simp only [ReservationsService.createReservationQ, if_neg h0, hp,
              if_neg hs, saveProduct_reservations, saveProduct_nextId, he,
              Bool.false_eq_true, if_false, Except.ok.injEq, Prod.mk.injEq] at h
            obtain ⟨h1, h2⟩ := h
            refine ⟨product, rfl, by omega, by omega,
              Or.inr ⟨rfl, rfl, h1.symm, ?_⟩⟩
            rw [← h2, ← h1]

theorem complete_ok {db : DB} {i now : Nat} {r : Reservation} {db' : DB}
    (h : ReservationsService.completeReservation db i now =
      Except.ok (r, db')) :
    ∃ rc, lookupReservation db.reservations i = some rc ∧
      ((rc.status = ReservationStatus.COMPLETED ∧ r = rc ∧ db' = db) ∨
       (rc.status = ReservationStatus.ACTIVE ∧ now < rc.expiresAt ∧
        r = { rc with status := ReservationStatus.COMPLETED } ∧
        db' = saveReservation db r)) := by
  cases hl : lookupReservation db.reservations i with
  | none => simp [ReservationsService.completeReservation, hl] at h
  | some rc =>
    simp only [ReservationsService.completeReservation, hl] at h
    by_cases hc : rc.status = ReservationStatus.COMPLETED
    · rw [if_pos hc] at h
      simp only [Except.ok.injEq, Prod.mk.injEq] at h
      exact ⟨rc, rfl, Or.inl ⟨hc, h.1.symm, h.2.symm⟩⟩
    · rw [if_neg hc] at h
      by_cases hx : rc.expiresAt ≤ now ∨ rc.status = ReservationStatus.EXPIRED
      · rw [if_pos hx] at h; cases h
      · rw [if_neg hx] at h
        simp only [Except.ok.injEq, Prod.mk.injEq] at h
        have hA : rc.status = ReservationStatus.ACTIVE := by
          cases hst : rc.status
          · rfl
          · exact absurd hst hc
          · exact absurd (Or.inr hst) hx
        have ht : now < rc.expiresAt := by
          by_contra hle
          exact hx (Or.inl (by omega))
        obtain ⟨h1, h2⟩ := h
        exact ⟨rc, rfl, Or.inr ⟨hA, ht, h1.symm, by rw [← h2, ← h1]⟩⟩

theorem cancel_ok {db : DB} {i now : Nat} {r : Reservation} {db' : DB}
    (h : ReservationsService.cancelReservation db i now =
      Except.ok (r, db')) :
    ∃ rc, lookupReservation db.reservations i = some rc ∧
      ((rc.status ≠ ReservationStatus.ACTIVE ∧ r = rc ∧ db' = db) ∨
       (rc.status = ReservationStatus.ACTIVE ∧
        r = { rc with
              status := ReservationStatus.EXPIRED,
              expiresAt := now } ∧
        db' = saveReservation (releaseStock db rc.productId rc.quantity) r)) := by
  cases hl : lookupReservation db.reservations i with
  | none => simp [ReservationsService.cancelReservation, hl] at h
  | some rc =>
    simp only [ReservationsService.cancelReservation, hl] at h
    by_cases hA : rc.status = ReservationStatus.ACTIVE
    · rw [if_neg (by simp [hA])] at h
      simp only [Except.ok.injEq, Prod.mk.injEq] at h
      obtain ⟨h1, h2⟩ := h
      exact ⟨rc, rfl, Or.inr ⟨hA, h1.symm, by rw [← h2, ← h1]⟩⟩
    · rw [if_pos (by simp [hA])] at h
      simp only [Except.ok.injEq, Prod.mk.injEq] at h
      exact ⟨rc, rfl, Or.inl ⟨hA, h.1.symm, h.2.symm⟩⟩

theorem expire_absent {db : DB} {i now : Nat}
    (h : lookupReservation db.reservations i = none) :
    ReservationsServiceB.expireReservation db i now = (none, db) := by
  simp [ReservationsServiceB.expireReservation, h]

theorem expire_not_active {db : DB} {i now : Nat} {r : Reservation}
    (h : lookupReservation db.reservations i = some r)
    (hA : r.status ≠ ReservationStatus.ACTIVE) :
    ReservationsServiceB.expireReservation db i now = (some r, db) := by
  simp [ReservationsServiceB.expireReservation, h, hA]

theorem expire_future {db : DB} {i now : Nat} {r : Reservation}
    (h : lookupReservation db.reservations i = some r)
    (hA : r.status = ReservationStatus.ACTIVE) (hf : now < r.expiresAt) :
    ReservationsServiceB.expireReservation db i now = (some r, db) := by
  simp [ReservationsServiceB.expireReservation, h, hA, hf]

theorem expire_fire {db : DB} {i now : Nat} {r : Reservation}
    (h : lookupReservation db.reservations i = some r)
    (hA : r.status = ReservationStatus.ACTIVE) (ho : r.expiresAt ≤ now) :
    ReservationsServiceB.expireReservation db i now =
      (some { r with status := ReservationStatus.EXPIRED, expiresAt := now },
       saveReservation (releaseStock db r.productId r.quantity)
         { r with status := ReservationStatus.EXPIRED, expiresAt := now }) := by
  have hf : ¬ now < r.expiresAt := by omega
  simp [ReservationsServiceB.expireReservation, h, hA, hf]

/-! ### Sweep lemmas -/

theorem sweepGo_nil_eq (snap : List Reservation) : ∀ db : DB,
    ReservationsCleanupService.sweepGo [] snap db =
      some (snap.foldl ReservationsCleanupService.sweepStep db) := by
  induction snap with
  | nil => intro db; rfl
  | cons s rest ih =>
    intro db
    simp only [ReservationsCleanupService.sweepGo, List.foldl,
      ReservationsCleanupService.sweepStep]
    cases hp : lookupProduct db.products s.productId with
    | none => exact ih db
    | some p => simpa using ih _

theorem sweepStep_res_ids (db : DB) (s : Reservation) :
    (ReservationsCleanupService.sweepStep db s).reservations.map Reservation.id =
      db.reservations.map Reservation.id := by
  unfold ReservationsCleanupService.sweepStep
  cases hp : lookupProduct db.products s.productId with
  | none => rfl
  | some p =>
    simp only [saveReservation, saveProduct_reservations]
    exact map_ids_of_id_preserving
      (by intro x; by_cases hx : x.id = s.id <;> simp [hx]) _

theorem sweepStep_pids (db : DB) (s : Reservation) :
    (ReservationsCleanupService.sweepStep db s).products.map Product.id =
      db.products.map Product.id := by
  unfold ReservationsCleanupService.sweepStep
  cases hp : lookupProduct db.products s.productId with
  | none => rfl
  | some p =>
    simp only [saveReservation_products, saveProduct]
    exact map_pids_of_id_preserving
      (by intro x; by_cases hx : x.id = p.id <;> simp [hx]) _

theorem sweepStep_nextId (db : DB) (s : Reservation) :
    (ReservationsCleanupService.sweepStep db s).nextId = db.nextId := by
  unfold ReservationsCleanupService.sweepStep
  cases lookupProduct db.products s.productId <;> rfl

theorem sweepStep_lookup_ne {db : DB} {s : Reservation} {i : Nat}
    {r : Reservation} (h : lookupReservation db.reservations i = some r)
    (hne : s.id ≠ i) :
    lookupReservation
      (ReservationsCleanupService.sweepStep db s).reservations i = some r := by
  unfold ReservationsCleanupService.sweepStep
  cases hp : lookupProduct db.products s.productId with
  | none => exact h
  | some p =>
    simp only [saveReservation, saveProduct_reservations]
    rw [lookupReservation_map
      (by intro x; by_cases hx : x.id = s.id <;> simp [hx]) _ i, h]
    have hr : r.id = i := (lookupReservation_mem h).2
    simp only [Option.map_some']
    have hri : r.id ≠ s.id := by rw [hr]; exact fun hh => hne hh.symm
    simp [hri]

theorem sweepFold_lookup_miss (snap : List Reservation) : ∀ (db : DB) (i : Nat)
    (r : Reservation), lookupReservation db.reservations i = some r →
    (∀ s ∈ snap, s.id ≠ i) →
    lookupReservation
      (snap.foldl ReservationsCleanupService.sweepStep db).reservations i =
      some r := by
  induction snap with
  | nil => intro db i r h _; exact h
  | cons s rest ih =>
    intro db i r h hne
    simp only [List.foldl]
    exact ih _ i r (sweepStep_lookup_ne h (hne s (List.mem_cons_self _ _)))
      (fun x hx => hne x (List.mem_cons_of_mem _ hx))

theorem sweepFold_pids (snap : List Reservation) : ∀ db : DB,
    (snap.foldl ReservationsCleanupService.sweepStep db).products.map Product.id
      = db.products.map Product.id := by
  induction snap with
  | nil => intro db; rfl
  | cons s rest ih =>
    intro db
    simp only [List.foldl]
    rw [ih _, sweepStep_pids]

theorem sweepFold_res_ids (snap : List Reservation) : ∀ db : DB,
    (snap.foldl ReservationsCleanupService.sweepStep db).reservations.map
        Reservation.id = db.reservations.map Reservation.id := by
  induction snap with
  | nil => intro db; rfl
  | cons s rest ih =>
    intro db
    simp only [List.foldl]
    rw [ih _, sweepStep_res_ids]

theorem sweepFold_nextId (snap : List Reservation) : ∀ db : DB,
    (snap.foldl ReservationsCleanupService.sweepStep db).nextId = db.nextId := by
  induction snap with
  | nil => intro db; rfl
  | cons s rest ih =>
    intro db
    simp only [List.foldl]
    rw [ih _, sweepStep_nextId]

theorem sweepFold_dangling (snap : List Reservation) : ∀ (db : DB)
    (r : Reservation), lookupReservation db.reservations r.id = some r →
    (∀ s ∈ snap, s.id = r.id → s = r) →
    lookupProduct db.products r.productId = none →
    lookupReservation
      (snap.foldl ReservationsCleanupService.sweepStep db).reservations r.id =
      some r := by
  induction snap with
  | nil => intro db r h _ _; exact h
  | cons s rest ih =>
    intro db r h hids hnone
    simp only [List.foldl]
    by_cases hs : s.id = r.id
    · have hsr : s = r := hids s (List.mem_cons_self _ _) hs
      subst hsr
      have hstep : ReservationsCleanupService.sweepStep db s = db := by
        unfold ReservationsCleanupService.sweepStep
        rw [hnone]
      rw [hstep]
      exact ih db s h (fun x hx => hids x (List.mem_cons_of_mem _ hx)) hnone
    · have h2 := sweepStep_lookup_ne h hs
      have hnone2 : lookupProduct
          (ReservationsCleanupService.sweepStep db s).products r.productId =
          none := by
        rw [lookupProduct_eq_none, sweepStep_pids]
        exact lookupProduct_eq_none.1 hnone
      exact ih _ r h2 (fun x hx => hids x (List.mem_cons_of_mem _ hx)) hnone2

theorem sweepFold_expires (snap : List Reservation) : ∀ (db : DB)
    (r : Reservation), lookupReservation db.reservations r.id = some r →
    r ∈ snap → (snap.map Reservation.id).Nodup →
    (lookupProduct db.products r.productId).isSome →
    lookupReservation
      (snap.foldl ReservationsCleanupService.sweepStep db).reservations r.id =
      some { r with status := ReservationStatus.EXPIRED } := by
  induction snap with
  | nil => intro db r _ hmem _ _; cases hmem
  | cons s rest ih =>
    intro db r h hmem hnd hsome
    simp only [List.map_cons, List.nodup_cons] at hnd
    simp only [List.foldl]
    by_cases hs : s.id = r.id
    · have hsr : s = r := by
        rcases List.mem_cons.1 hmem with h' | h'
        · exact h'.symm
        · exact absurd (hs ▸ List.mem_map_of_mem Reservation.id h') hnd.1
      subst hsr
      cases hp : lookupProduct db.products s.productId with
      | none => rw [hp] at hsome; cases hsome
      | some p =>
        have hstep : (ReservationsCleanupService.sweepStep db s).reservations =
            db.reservations.map (fun x =>
              if x.id = s.id then { s with status := ReservationStatus.EXPIRED }
              else x) := by
          unfold ReservationsCleanupService.sweepStep
          rw [hp]
          rfl
        have h2 : lookupReservation
            (ReservationsCleanupService.sweepStep db s).reservations s.id =
            some { s with status := ReservationStatus.EXPIRED } := by
          rw [hstep, lookupReservation_map
            (by intro x; by_cases hx : x.id = s.id <;> simp [hx]) _ s.id, h]
          simp
        exact sweepFold_lookup_miss rest _ s.id _ h2
          (fun x hx hxi => hnd.1 (hxi ▸ List.mem_map_of_mem Reservation.id hx))
    · have hr : r ∈ rest := by
        rcases List.mem_cons.1 hmem with h' | h'
        · exact absurd (by rw [h'] : s.id = r.id) hs
        · exact h'
      have h2 := sweepStep_lookup_ne h hs
      have hsome2 : (lookupProduct
          (ReservationsCleanupService.sweepStep db s).products r.productId).isSome := by
        cases hq : lookupProduct
            (ReservationsCleanupService.sweepStep db s).products r.productId with
        | none =>
          rw [lookupProduct_eq_none, sweepStep_pids] at hq
          cases hq2 : lookupProduct db.products r.productId with
          | none => rw [hq2] at hsome; cases hsome
          | some p =>
            exact absurd (List.mem_map.2
              ⟨p, (lookupProduct_mem hq2).1, (lookupProduct_mem hq2).2⟩) hq
        | some p => rfl
      exact ih _ r h2 hr hnd.2 hsome2

/-! ### Stock and contribution lemmas -/

theorem saveReservation_reservations (db : DB) (r : Reservation) :
    (saveReservation db r).reservations =
      db.reservations.map (fun x => if x.id = r.id then r else x) := rfl

theorem renewAllActive_reservations (db : DB) (u : String) (e : Nat) :
    (renewAllActive db u e).reservations =
      db.reservations.map (fun r =>
        if r.userId = u ∧ r.status = ReservationStatus.ACTIVE
        then { r with expiresAt := e } else r) := rfl

theorem stockOf_saveProduct_ne {db : DB} {p' : Product} {pid : Nat}
    (hne : pid ≠ p'.id) :
    stockOf (saveProduct db p') pid = stockOf db pid := by
  unfold stockOf
  have : (saveProduct db p').products = db.products.map
      (fun q => if q.id = p'.id then p' else q) := rfl
  rw [this, lookupProduct_map
    (by intro x; by_cases hx : x.id = p'.id <;> simp [hx]) _ pid]
  cases h : lookupProduct db.products pid with
  | none => rfl
  | some q =>
    have hq : q.id = pid := (lookupProduct_mem h).2
    have : q.id ≠ p'.id := by rw [hq]; exact hne
    simp [this]

theorem stockOf_saveProduct_self {db : DB} {p' : Product} {pid : Nat}
    {p : Product} (hpid : p'.id = pid)
    (h : lookupProduct db.products pid = some p) :
    stockOf (saveProduct db p') pid = p'.availableStock := by
  unfold stockOf
  have hpr : (saveProduct db p').products = db.products.map
      (fun q => if q.id = p'.id then p' else q) := rfl
  rw [hpr, lookupProduct_map
    (by intro x; by_cases hx : x.id = p'.id <;> simp [hx]) _ pid, h]
  have hq : p.id = pid := (lookupProduct_mem h).2
  simp [hq.trans hpid.symm]

theorem releaseStock_of_none {db : DB} {pid : Nat} {q : Int}
    (h : lookupProduct db.products pid = none) :
    releaseStock db pid q = db := by
  unfold releaseStock; rw [h]

theorem stockOf_releaseStock_self {db : DB} {rpid : Nat} {q : Int} {p : Product}
    (hp : lookupProduct db.products rpid = some p) :
    stockOf (releaseStock db rpid q) rpid = stockOf db rpid + q := by
  have hid : p.id = rpid := (lookupProduct_mem hp).2
  have hrel : releaseStock db rpid q =
      saveProduct db { p with availableStock := p.availableStock + q } := by
    unfold releaseStock; rw [hp]
  rw [hrel, stockOf_saveProduct_self
    (show ({ p with availableStock := p.availableStock + q } : Product).id =
      rpid from hid) hp]
  unfold stockOf
  rw [hp]

theorem stockOf_releaseStock_ne {db : DB} {rpid : Nat} {q : Int} {pid : Nat}
    (hne : pid ≠ rpid) :
    stockOf (releaseStock db rpid q) pid = stockOf db pid := by
  unfold releaseStock
  cases hp : lookupProduct db.products rpid with
  | none => rfl
  | some p =>
    have hid : p.id = rpid := (lookupProduct_mem hp).2
    exact stockOf_saveProduct_ne (by simp only []; rw [hid]; exact hne)

theorem contribActive_of_active {pid : Nat} {r : Reservation}
    (h : r.status = ReservationStatus.ACTIVE) :
    contribActive pid r = if r.productId = pid then r.quantity else 0 := by
  by_cases hp : r.productId = pid <;> simp [contribActive, h, hp]

theorem contribActive_of_not_active {pid : Nat} {r : Reservation}
    (h : r.status ≠ ReservationStatus.ACTIVE) :
    contribActive pid r = 0 := by
  simp [contribActive, h]

theorem contribCompleted_of_completed {pid : Nat} {r : Reservation}
    (h : r.status = ReservationStatus.COMPLETED) :
    contribCompleted pid r = if r.productId = pid then r.quantity else 0 := by
  by_cases hp : r.productId = pid <;> simp [contribCompleted, h, hp]

theorem contribCompleted_of_not_completed {pid : Nat} {r : Reservation}
    (h : r.status ≠ ReservationStatus.COMPLETED) :
    contribCompleted pid r = 0 := by
  simp [contribCompleted, h]

theorem activeSum_renew (pid : Nat) (u : String) (e : Nat)
    (l : List Reservation) :
    activeSum pid (l.map (fun r =>
      if r.userId = u ∧ r.status = ReservationStatus.ACTIVE
      then { r with expiresAt := e } else r)) = activeSum pid l := by
  unfold activeSum
  refine sumBy_map_congr (fun x _ => ?_)
  by_cases hc : x.userId = u ∧ x.status = ReservationStatus.ACTIVE <;>
    simp [hc, contribActive]

theorem completedSum_renew (pid : Nat) (u : String) (e : Nat)
    (l : List Reservation) :
    completedSum pid (l.map (fun r =>
      if r.userId = u ∧ r.status = ReservationStatus.ACTIVE
      then { r with expiresAt := e } else r)) = completedSum pid l := by
  unfold completedSum
  refine sumBy_map_congr (fun x _ => ?_)
  by_cases hc : x.userId = u ∧ x.status = ReservationStatus.ACTIVE <;>
    simp [hc, contribCompleted]

theorem sweepStep_ledger {db : DB} {s : Reservation}
    (hnd : (db.reservations.map Reservation.id).Nodup)
    (hls : lookupReservation db.reservations s.id = some s)
    (hACT : s.status = ReservationStatus.ACTIVE) (pid : Nat) :
    ledger (ReservationsCleanupService.sweepStep db s) pid = ledger db pid := by
  have hsmem : s ∈ db.reservations := (lookupReservation_mem hls).1
  unfold ReservationsCleanupService.sweepStep
  cases hp : lookupProduct db.products s.productId with
  | none => rfl
  | some p =>
    have hpid : p.id = s.productId := (lookupProduct_mem hp).2
    unfold ledger
    have hres : (saveReservation
        (saveProduct db { p with availableStock := p.availableStock + s.quantity })
        { s with status := ReservationStatus.EXPIRED }).reservations =
        db.reservations.map (fun x =>
          if x.id = s.id then { s with status := ReservationStatus.EXPIRED }
          else x) := rfl
    have hprodeq : (saveReservation
        (saveProduct db { p with availableStock := p.availableStock + s.quantity })
        { s with status := ReservationStatus.EXPIRED }).products =
        (saveProduct db
          { p with availableStock := p.availableStock + s.quantity }).products :=
      rfl
    have hstock : stockOf (saveReservation
        (saveProduct db { p with availableStock := p.availableStock + s.quantity })
        { s with status := ReservationStatus.EXPIRED }) pid =
        stockOf (saveProduct db
          { p with availableStock := p.availableStock + s.quantity }) pid := by
      unfold stockOf
      rw [hprodeq]
    have hact : activeSum pid (db.reservations.map (fun x =>
        if x.id = s.id then { s with status := ReservationStatus.EXPIRED }
        else x)) = activeSum pid db.reservations - contribActive pid s := by
      unfold activeSum
      rw [sumBy_replace (contribActive pid) hnd hsmem
        (show ({ s with status := ReservationStatus.EXPIRED } :
          Reservation).id = s.id from rfl)]
      rw [contribActive_of_not_active
        (show ({ s with status := ReservationStatus.EXPIRED} :
          Reservation).status ≠ ReservationStatus.ACTIVE by simp)]
      ring
    have hcomp : completedSum pid (db.reservations.map (fun x =>
        if x.id = s.id then { s with status := ReservationStatus.EXPIRED }
        else x)) = completedSum pid db.reservations := by
      unfold completedSum
      rw [sumBy_replace (contribCompleted pid) hnd hsmem
        (show ({ s with status := ReservationStatus.EXPIRED } :
          Reservation).id = s.id from rfl)]
      rw [contribCompleted_of_not_completed
        (show ({ s with status := ReservationStatus.EXPIRED} :
          Reservation).status ≠ ReservationStatus.COMPLETED by simp),
        contribCompleted_of_not_completed (by rw [hACT]; simp)]
      ring
    rw [hres, hstock, hact, hcomp]
    by_cases hpe : pid = s.productId
    · have hp' : lookupProduct db.products pid = some p := by rw [hpe]; exact hp
      rw [stockOf_saveProduct_self
        (show ({ p with availableStock := p.availableStock + s.quantity } :
          Product).id = pid from hpid.trans hpe.symm) hp']
      rw [contribActive_of_active hACT]
      have hstk : stockOf db pid = p.availableStock := by
        unfold stockOf; rw [hp']
      rw [hstk, if_pos hpe.symm]
      ring
    · rw [stockOf_saveProduct_ne
        (show pid ≠ ({ p with availableStock := p.availableStock + s.quantity } :
          Product).id from fun h => hpe (h.trans hpid))]
      rw [contribActive_of_active hACT]
      have hq : ¬ s.productId = pid := fun hh => hpe hh.symm
      rw [if_neg hq]
      ring

theorem sweepFold_ledger (snap : List Reservation) : ∀ db : DB,
    (db.reservations.map Reservation.id).Nodup →
    (∀ s ∈ snap, lookupReservation db.reservations s.id = some s ∧
      s.status = ReservationStatus.ACTIVE) →
    (snap.map Reservation.id).Nodup →
    ∀ pid, ledger (snap.foldl ReservationsCleanupService.sweepStep db) pid =
      ledger db pid := by
  induction snap with
  | nil => intro db _ _ _ pid; rfl
  | cons s rest ih =>
    intro db hnd hsnap hsnd pid
    obtain ⟨hls, hACT⟩ := hsnap s (List.mem_cons_self _ _)
    simp only [List.map_cons, List.nodup_cons] at hsnd
    simp only [List.foldl]
    have hnd2 : ((ReservationsCleanupService.sweepStep db s).reservations.map
        Reservation.id).Nodup := by
      rw [sweepStep_res_ids]; exact hnd
    have hsnap2 : ∀ x ∈ rest, lookupReservation
        (ReservationsCleanupService.sweepStep db s).reservations x.id = some x ∧
        x.status = ReservationStatus.ACTIVE := by
      intro x hx
      have hxne : s.id ≠ x.id := by
        intro he
        exact hsnd.1 (he ▸ List.mem_map_of_mem Reservation.id hx)
      exact ⟨sweepStep_lookup_ne (hsnap x (List.mem_cons_of_mem _ hx)).1 hxne,
        (hsnap x (List.mem_cons_of_mem _ hx)).2⟩
    rw [ih _ hnd2 hsnap2 hsnd.2 pid, sweepStep_ledger hnd hls hACT pid]

/-! ### Ledger preservation, operation by operation -/

theorem sweep_eq_foldl (db : DB) (now : Nat) :
    ReservationsCleanupService.expireOverdueReservations db now =
      (ReservationsCleanupService.overdue db now).foldl
        ReservationsCleanupService.sweepStep db := by
  unfold ReservationsCleanupService.expireOverdueReservations
    ReservationsCleanupService.expireOverdueReservationsF
  rw [sweepGo_nil_eq]

theorem lookupProduct_isSome_of_mem {l : List Product} {pid : Nat}
    (h : pid ∈ l.map Product.id) : ∃ p, lookupProduct l pid = some p := by
  cases hl : lookupProduct l pid with
  | none => exact absurd h (lookupProduct_eq_none.1 hl)
  | some p => exact ⟨p, rfl⟩

theorem ledger_expire_row {db : DB} {rc : Reservation} {now : Nat}
    (hnd : (db.reservations.map Reservation.id).Nodup)
    (hmem : rc ∈ db.reservations)
    (hACT : rc.status = ReservationStatus.ACTIVE) :
    ∀ pid, pid ∈ db.products.map Product.id →
    ledger (saveReservation (releaseStock db rc.productId rc.quantity)
      { rc with status := ReservationStatus.EXPIRED, expiresAt := now }) pid =
      ledger db pid := by
  intro pid hpid
  unfold ledger
  have hres : (saveReservation (releaseStock db rc.productId rc.quantity)
      { rc with status := ReservationStatus.EXPIRED, expiresAt := now }).reservations =
      db.reservations.map (fun x =>
        if x.id = rc.id then
          { rc with status := ReservationStatus.EXPIRED, expiresAt := now }
        else x) := by
    rw [saveReservation_reservations, releaseStock_reservations]
  have hstock : stockOf (saveReservation (releaseStock db rc.productId rc.quantity)
      { rc with status := ReservationStatus.EXPIRED, expiresAt := now }) pid =
      stockOf (releaseStock db rc.productId rc.quantity) pid := by
    unfold stockOf
    rw [saveReservation_products]
  have hact : activeSum pid (db.reservations.map (fun x =>
      if x.id = rc.id then
        { rc with status := ReservationStatus.EXPIRED, expiresAt := now }
      else x)) = activeSum pid db.reservations - contribActive pid rc := by
    unfold activeSum
    rw [sumBy_replace (contribActive pid) hnd hmem
      (show ({ rc with status := ReservationStatus.EXPIRED, expiresAt := now } :
        Reservation).id = rc.id from rfl)]
    rw [contribActive_of_not_active
      (show ({ rc with status := ReservationStatus.EXPIRED, expiresAt := now } :
        Reservation).status ≠ ReservationStatus.ACTIVE by simp)]
    ring
  have hcomp : completedSum pid (db.reservations.map (fun x =>
      if x.id = rc.id then
        { rc with status := ReservationStatus.EXPIRED, expiresAt := now }
      else x)) = completedSum pid db.reservations := by
    unfold completedSum
    rw [sumBy_replace (contribCompleted pid) hnd hmem
      (show ({ rc with status := ReservationStatus.EXPIRED, expiresAt := now } :
        Reservation).id = rc.id from rfl)]
    rw [contribCompleted_of_not_completed
      (show ({ rc with status := ReservationStatus.EXPIRED, expiresAt := now } :
        Reservation).status ≠ ReservationStatus.COMPLETED by simp),
      contribCompleted_of_not_completed (by rw [hACT]; simp)]
    ring
  rw [hres, hstock, hact, hcomp, contribActive_of_active hACT]
  by_cases hpe : pid = rc.productId
  · obtain ⟨p, hp⟩ := lookupProduct_isSome_of_mem (hpe ▸ hpid)
    have h1 : stockOf (releaseStock db rc.productId rc.quantity) pid =
        stockOf db pid + rc.quantity := by
      rw [hpe]
      exact stockOf_releaseStock_self hp
    rw [h1, if_pos hpe.symm]
    ring
  · rw [stockOf_releaseStock_ne hpe,
      if_neg (fun hh => hpe hh.symm)]
    ring

theorem complete_ledger {db : DB} {i now : Nat} {r : Reservation} {db' : DB}
    (hnd : (db.reservations.map Reservation.id).Nodup)
    (h : ReservationsService.completeReservation db i now = Except.ok (r, db')) :
    ∀ pid, ledger db' pid = ledger db pid := by
  intro pid
  obtain ⟨rc, hl, hcase⟩ := complete_ok h
  rcases hcase with ⟨_, _, hdb⟩ | ⟨hA, _, hr, hdb⟩
  · rw [hdb]
  · subst hr; subst hdb
    unfold ledger
    have hstock : stockOf (saveReservation db
        { rc with status := ReservationStatus.COMPLETED }) pid =
        stockOf db pid := by
      unfold stockOf; rw [saveReservation_products]
    have hmem : rc ∈ db.reservations := (lookupReservation_mem hl).1
    have hact : activeSum pid (saveReservation db
        { rc with status := ReservationStatus.COMPLETED }).reservations =
        activeSum pid db.reservations - contribActive pid rc := by
      rw [saveReservation_reservations]
      unfold activeSum
      rw [sumBy_replace (contribActive pid) hnd hmem
        (show ({ rc with status := ReservationStatus.COMPLETED } :
          Reservation).id = rc.id from rfl)]
      rw [contribActive_of_not_active
        (show ({ rc with status := ReservationStatus.COMPLETED } :
          Reservation).status ≠ ReservationStatus.ACTIVE by simp)]
      ring
    have hcomp : completedSum pid (saveReservation db
        { rc with status := ReservationStatus.COMPLETED }).reservations =
        completedSum pid db.reservations + contribActive pid rc := by
      rw [saveReservation_reservations]
      unfold completedSum
      rw [sumBy_replace (contribCompleted pid) hnd hmem
        (show ({ rc with status := ReservationStatus.COMPLETED } :
          Reservation).id = rc.id from rfl)]
      rw [contribCompleted_of_not_completed (by rw [hA]; simp),
        contribCompleted_of_completed
          (show ({ rc with status := ReservationStatus.COMPLETED } :
            Reservation).status = ReservationStatus.COMPLETED from rfl),
        contribActive_of_active hA]
      ring
    rw [hstock, hact, hcomp]
    ring

theorem cancel_ledger {db : DB} {i now : Nat} {r : Reservation} {db' : DB}
    (hnd : (db.reservations.map Reservation.id).Nodup)
    (h : ReservationsService.cancelReservation db i now = Except.ok (r, db')) :
    ∀ pid, pid ∈ db.products.map Product.id → ledger db' pid = ledger db pid := by
  intro pid hpid
  obtain ⟨rc, hl, hcase⟩ := cancel_ok h
  rcases hcase with ⟨_, _, hdb⟩ | ⟨hA, hr, hdb⟩
  · rw [hdb]
  · subst hr; subst hdb
    exact ledger_expire_row hnd (lookupReservation_mem hl).1 hA pid hpid

theorem expire_ledger {db : DB} {i now : Nat}
    (hnd : (db.reservations.map Reservation.id).Nodup) :
    ∀ pid, pid ∈ db.products.map Product.id →
    ledger (ReservationsServiceB.expireReservation db i now).2 pid =
      ledger db pid := by
  intro pid hpid
  cases hl : lookupReservation db.reservations i with
  | none => rw [expire_absent hl]
  | some rc =>
    by_cases hA : rc.status = ReservationStatus.ACTIVE
    · by_cases hf : now < rc.expiresAt
      · rw [expire_future hl hA hf]
      · rw [expire_fire hl hA (by omega)]
        exact ledger_expire_row hnd (lookupReservation_mem hl).1 hA pid hpid
    · rw [expire_not_active hl hA]

theorem sweep_ledger {db : DB} {now : Nat}
    (hnd : (db.reservations.map Reservation.id).Nodup) :
    ∀ pid, ledger (ReservationsCleanupService.expireOverdueReservations db now)
      pid = ledger db pid := by
  intro pid
  rw [sweep_eq_foldl]
  refine sweepFold_ledger _ db hnd ?_ ?_ pid
  · intro s hs
    unfold ReservationsCleanupService.overdue at hs
    have hmem := (List.mem_filter.1 hs).1
    have hpred := of_decide_eq_true (List.mem_filter.1 hs).2
    exact ⟨lookupReservation_self hnd hmem, hpred.1⟩
  · have hsub : List.Sublist
        ((ReservationsCleanupService.overdue db now).map Reservation.id)
        (db.reservations.map Reservation.id) :=
      List.Sublist.map _ (List.filter_sublist _)
    exact hnd.sublist hsub

theorem create_ledger {qf : Bool} {db : DB} {u : String} {pid0 : Nat} {q : Int}
    {now : Nat} {r : Reservation} {db' : DB}
    (hnd : (db.reservations.map Reservation.id).Nodup)
    (h : ReservationsService.createReservationQ qf db u pid0 q now =
      Except.ok (r, db')) :
    ∀ pid, ledger db' pid = ledger db pid := by
  intro pid
  obtain ⟨product, hp, hq0, hqs, hbr⟩ := createQ_ok h
  have hprid : product.id = pid0 := (lookupProduct_mem hp).2
  have hstockcase : stockOf (saveProduct db
      { product with availableStock := product.availableStock - q }) pid =
      (if pid = pid0 then stockOf db pid - q else stockOf db pid) := by
    by_cases hpe : pid = pid0
    · have hp' : lookupProduct db.products pid = some product := by
        rw [hpe]; exact hp
      rw [stockOf_saveProduct_self
        (show ({ product with availableStock := product.availableStock - q } :
          Product).id = pid from hprid.trans hpe.symm) hp', if_pos hpe]
      unfold stockOf
      rw [hp']
    · rw [stockOf_saveProduct_ne
        (show pid ≠ ({ product with
          availableStock := product.availableStock - q } : Product).id from
          fun hh => hpe (hh.trans hprid)), if_neg hpe]
  rcases hbr with ⟨e, he, hr, hdb⟩ | ⟨hnone, hqf, hr, hdb⟩
  · obtain ⟨hemem, heu, hep, heA⟩ := lookupActive_mem he
    subst hr; subst hdb
    unfold ledger
    have hstock : stockOf (renewAllActive (saveReservation
        (saveProduct db
          { product with availableStock := product.availableStock - q })
        { e with
          quantity := e.quantity + q,
          expiresAt := now + TTL })
        u (now + TTL)) pid =
        stockOf (saveProduct db
          { product with availableStock := product.availableStock - q }) pid :=
      rfl
    have hres : (renewAllActive (saveReservation
        (saveProduct db
          { product with availableStock := product.availableStock - q })
        { e with
          quantity := e.quantity + q,
          expiresAt := now + TTL })
        u (now + TTL)).reservations =
        (db.reservations.map (fun x =>
          if x.id = ({ e with
            quantity := e.quantity + q,
            expiresAt := now + TTL } : Reservation).id then
            { e with
              quantity := e.quantity + q,
              expiresAt := now + TTL }
          else x)).map (fun x =>
          if x.userId = u ∧ x.status = ReservationStatus.ACTIVE
          then { x with expiresAt := now + TTL } else x) := rfl
    have hact : activeSum pid (renewAllActive (saveReservation
        (saveProduct db
          { product with availableStock := product.availableStock - q })
        { e with
          quantity := e.quantity + q,
          expiresAt := now + TTL })
        u (now + TTL)).reservations =
        activeSum pid db.reservations -
          (if e.productId = pid then e.quantity else 0) +
          (if e.productId = pid then e.quantity + q else 0) := by
      rw [hres, activeSum_renew]
      unfold activeSum
      rw [sumBy_replace (contribActive pid) hnd hemem
        (show ({ e with
          quantity := e.quantity + q,
          expiresAt := now + TTL } : Reservation).id = e.id from rfl)]
      rw [show contribActive pid e = if e.productId = pid then e.quantity else 0
        from contribActive_of_active heA]
      rw [show contribActive pid ({ e with
          quantity := e.quantity + q,
          expiresAt := now + TTL } : Reservation) =
        if e.productId = pid then e.quantity + q else 0
        from contribActive_of_active heA]
    have hcomp : completedSum pid (renewAllActive (saveReservation
        (saveProduct db
          { product with availableStock := product.availableStock - q })
        { e with
          quantity := e.quantity + q,
          expiresAt := now + TTL })
        u (now + TTL)).reservations =
        completedSum pid db.reservations := by
      rw [hres, completedSum_renew]
      unfold completedSum
      rw [sumBy_replace (contribCompleted pid) hnd hemem
        (show ({ e with
          quantity := e.quantity + q,
          expiresAt := now + TTL } : Reservation).id = e.id from rfl)]
      rw [show contribCompleted pid e = 0
        from contribCompleted_of_not_completed (by rw [heA]; simp)]
      rw [show contribCompleted pid ({ e with
          quantity := e.quantity + q,
          expiresAt := now + TTL } : Reservation) = 0
        from contribCompleted_of_not_completed (by
          show e.status ≠ ReservationStatus.COMPLETED
          rw [heA]; simp)]
      ring
    rw [hstock, hstockcase, hact, hcomp]
    by_cases hpe : pid = pid0
    · rw [if_pos hpe, if_pos (hep.trans hpe.symm), if_pos (hep.trans hpe.symm)]
      ring
    · have hne : ¬ e.productId = pid := fun hh => hpe (hep ▸ hh).symm
      rw [if_neg hpe, if_neg hne, if_neg hne]
      ring
  · subst hr; subst hdb
    unfold ledger
    have hstock : stockOf (renewAllActive
        { products := (saveProduct db
            { product with availableStock := product.availableStock - q }).products,
          reservations := db.reservations ++
            [{ id := db.nextId, productId := pid0, userId := u, quantity := q,
               status := ReservationStatus.ACTIVE, createdAt := now,
               expiresAt := now + TTL }],
          nextId := db.nextId + 1 } u (now + TTL)) pid =
        stockOf (saveProduct db
          { product with availableStock := product.availableStock - q }) pid :=
      rfl
    have hres : (renewAllActive
        { products := (saveProduct db
            { product with availableStock := product.availableStock - q }).products,
          reservations := db.reservations ++
            [{ id := db.nextId, productId := pid0, userId := u, quantity := q,
               status := ReservationStatus.ACTIVE, createdAt := now,
               expiresAt := now + TTL }],
          nextId := db.nextId + 1 } u (now + TTL)).reservations =
        (db.reservations ++
          [({ id := db.nextId, productId := pid0, userId := u, quantity := q,
              status := ReservationStatus.ACTIVE, createdAt := now,
              expiresAt := now + TTL } : Reservation)]).map (fun x =>
          if x.userId = u ∧ x.status = ReservationStatus.ACTIVE
          then { x with expiresAt := now + TTL } else x) := rfl
    have hact : activeSum pid (renewAllActive
        { products := (saveProduct db
            { product with availableStock := product.availableStock - q }).products,
          reservations := db.reservations ++
            [{ id := db.nextId, productId := pid0, userId := u, quantity := q,
               status := ReservationStatus.ACTIVE, createdAt := now,
               expiresAt := now + TTL }],
          nextId := db.nextId + 1 } u (now + TTL)).reservations =
        activeSum pid db.reservations + (if pid0 = pid then q else 0) := by
      rw [hres, activeSum_renew]
      unfold activeSum
      rw [sumBy_append]
      rw [show contribActive pid
          ({ id := db.nextId, productId := pid0, userId := u, quantity := q,
             status := ReservationStatus.ACTIVE, createdAt := now,
             expiresAt := now + TTL } : Reservation) =
          if pid0 = pid then q else 0 from contribActive_of_active rfl]
    have hcomp : completedSum pid (renewAllActive
        { products := (saveProduct db
            { product with availableStock := product.availableStock - q }).products,
          reservations := db.reservations ++
            [{ id := db.nextId, productId := pid0, userId := u, quantity := q,
               status := ReservationStatus.ACTIVE, createdAt := now,
               expiresAt := now + TTL }],
          nextId := db.nextId + 1 } u (now + TTL)).reservations =
        completedSum pid db.reservations := by
      rw [hres, completedSum_renew]
      unfold completedSum
      rw [sumBy_append]
      rw [show contribCompleted pid
          ({ id := db.nextId, productId := pid0, userId := u, quantity := q,
             status := ReservationStatus.ACTIVE, createdAt := now,
             expiresAt := now + TTL } : Reservation) = 0
          from contribCompleted_of_not_completed (by simp)]
      ring
    rw [hstock, hstockcase, hact, hcomp]
    by_cases hpe : pid = pid0
    · rw [if_pos hpe, if_pos hpe.symm]
      ring
    · rw [if_neg hpe, if_neg (fun hh => hpe hh.symm)]
      ring

/-! ### Step-level preservation -/

theorem create_shape {qf : Bool} {db : DB} {u : String} {pid0 : Nat} {q : Int}
    {now : Nat} {r : Reservation} {db' : DB}
    (h : ReservationsService.createReservationQ qf db u pid0 q now =
      Except.ok (r, db')) :
    db'.products.map Product.id = db.products.map Product.id ∧
    (db'.reservations.map Reservation.id = db.reservations.map Reservation.id ∧
      db'.nextId = db.nextId ∨
     db'.reservations.map Reservation.id =
      db.reservations.map Reservation.id ++ [db.nextId] ∧
      db'.nextId = db.nextId + 1) := by
  obtain ⟨product, hp, _, _, hbr⟩ := createQ_ok h
  have hgp : ∀ l : List Product,
      (l.map (fun x => if x.id = ({ product with
        availableStock := product.availableStock - q } : Product).id
        then { product with availableStock := product.availableStock - q }
        else x)).map Product.id = l.map Product.id :=
    map_pids_of_id_preserving
      (by intro x
          by_cases hx : x.id = ({ product with
            availableStock := product.availableStock - q } : Product).id <;>
            simp [hx])
  rcases hbr with ⟨e, he, hr, hdb⟩ | ⟨hnone, hqf, hr, hdb⟩
  · subst hr; subst hdb
    constructor
    · exact hgp db.products
    · left
      constructor
      · rw [show (renewAllActive (saveReservation
          (saveProduct db
            { product with availableStock := product.availableStock - q })
          { e with
            quantity := e.quantity + q,
            expiresAt := now + TTL }) u (now + TTL)).reservations =
          ((db.reservations.map (fun x =>
            if x.id = ({ e with
              quantity := e.quantity + q,
              expiresAt := now + TTL } : Reservation).id then
              { e with
                quantity := e.quantity + q,
                expiresAt := now + TTL }
            else x)).map (fun x =>
            if x.userId = u ∧ x.status = ReservationStatus.ACTIVE
            then { x with expiresAt := now + TTL } else x)) from rfl]
        rw [map_ids_of_id_preserving (by
          intro x
          by_cases hx : x.userId = u ∧ x.status = ReservationStatus.ACTIVE <;>
            simp [hx])]
        rw [map_ids_of_id_preserving (by
          intro x
          by_cases hx : x.id = ({ e with
            quantity := e.quantity + q,
            expiresAt := now + TTL } : Reservation).id <;> simp [hx])]
      · rfl
  · subst hr; subst hdb
    constructor
    · exact hgp db.products
    · right
      constructor
      · rw [show (renewAllActive
          { products := (saveProduct db
              { product with availableStock := product.availableStock - q }).products,
            reservations := db.reservations ++
              [{ id := db.nextId, productId := pid0, userId := u, quantity := q,
                 status := ReservationStatus.ACTIVE, createdAt := now,
                 expiresAt := now + TTL }],
            nextId := db.nextId + 1 } u (now + TTL)).reservations =
          ((db.reservations ++
            [({ id := db.nextId, productId := pid0, userId := u, quantity := q,
                status := ReservationStatus.ACTIVE, createdAt := now,
                expiresAt := now + TTL } : Reservation)]).map (fun x =>
            if x.userId = u ∧ x.status = ReservationStatus.ACTIVE
            then { x with expiresAt := now + TTL } else x)) from rfl]
        rw [map_ids_of_id_preserving (by
          intro x
          by_cases hx : x.userId = u ∧ x.status = ReservationStatus.ACTIVE <;>
            simp [hx])]
        rw [List.map_append]
        rfl
      · rfl

theorem complete_shape {db : DB} {i now : Nat} {r : Reservation} {db' : DB}
    (h : ReservationsService.completeReservation db i now =
      Except.ok (r, db')) :
    db'.products = db.products ∧
    db'.reservations.map Reservation.id = db.reservations.map Reservation.id ∧
    db'.nextId = db.nextId := by
  obtain ⟨rc, hl, hcase⟩ := complete_ok h
  rcases hcase with ⟨_, _, hdb⟩ | ⟨_, _, hr, hdb⟩
  · subst hdb; exact ⟨rfl, rfl, rfl⟩
  · subst hr; subst hdb
    refine ⟨rfl, ?_, rfl⟩
    rw [saveReservation_reservations]
    exact map_ids_of_id_preserving (by
      intro x
      by_cases hx : x.id = ({ rc with status := ReservationStatus.COMPLETED } :
        Reservation).id <;> simp [hx]) _

theorem cancel_shape {db : DB} {i now : Nat} {r : Reservation} {db' : DB}
    (h : ReservationsService.cancelReservation db i now =
      Except.ok (r, db')) :
    db'.products.map Product.id = db.products.map Product.id ∧
    db'.reservations.map Reservation.id = db.reservations.map Reservation.id ∧
    db'.nextId = db.nextId := by
  obtain ⟨rc, hl, hcase⟩ := cancel_ok h
  rcases hcase with ⟨_, _, hdb⟩ | ⟨_, hr, hdb⟩
  · subst hdb; exact ⟨rfl, rfl, rfl⟩
  · subst hr; subst hdb
    refine ⟨?_, ?_, by simp⟩
    · rw [saveReservation_products]
      exact releaseStock_pids db rc.productId rc.quantity
    · rw [saveReservation_reservations, releaseStock_reservations]
      exact map_ids_of_id_preserving (by
        intro x
        by_cases hx : x.id = ({ rc with
          status := ReservationStatus.EXPIRED,
          expiresAt := now } : Reservation).id <;> simp [hx]) _

theorem expire_shape (db : DB) (i now : Nat) :
    (ReservationsServiceB.expireReservation db i now).2.products.map Product.id
      = db.products.map Product.id ∧
    (ReservationsServiceB.expireReservation db i now).2.reservations.map
      Reservation.id = db.reservations.map Reservation.id ∧
    (ReservationsServiceB.expireReservation db i now).2.nextId = db.nextId := by
  cases hl : lookupReservation db.reservations i with
  | none => rw [expire_absent hl]; exact ⟨rfl, rfl, rfl⟩
  | some rc =>
    by_cases hA : rc.status = ReservationStatus.ACTIVE
    · by_cases hf : now < rc.expiresAt
      · rw [expire_future hl hA hf]; exact ⟨rfl, rfl, rfl⟩
      · rw [expire_fire hl hA (by omega)]
        refine ⟨?_, ?_, by simp⟩
        · rw [saveReservation_products]
          exact releaseStock_pids db rc.productId rc.quantity
        · rw [saveReservation_reservations, releaseStock_reservations]
          exact map_ids_of_id_preserving (by
            intro x
            by_cases hx : x.id = ({ rc with
              status := ReservationStatus.EXPIRED,
              expiresAt := now } : Reservation).id <;> simp [hx]) _
    · rw [expire_not_active hl hA]; exact ⟨rfl, rfl, rfl⟩

theorem sweep_shape (db : DB) (now : Nat) :
    (ReservationsCleanupService.expireOverdueReservations db now).products.map
      Product.id = db.products.map Product.id ∧
    (ReservationsCleanupService.expireOverdueReservations db now).reservations.map
      Reservation.id = db.reservations.map Reservation.id ∧
    (ReservationsCleanupService.expireOverdueReservations db now).nextId =
      db.nextId := by
  rw [sweep_eq_foldl]
  exact ⟨sweepFold_pids _ db, sweepFold_res_ids _ db, sweepFold_nextId _ db⟩

theorem step_pids {db db' : DB} (h : Step db db') :
    db'.products.map Product.id = db.products.map Product.id := by
  cases h with
  | create qf u p q now r =>
    rename_i hok
    exact (create_shape hok).1
  | complete i now r =>
    rename_i hok
    rw [(complete_shape hok).1]
  | cancel i now r =>
    rename_i hok
    exact (cancel_shape hok).1
  | expire i now => exact (expire_shape db i now).1
  | sweep now => exact (sweep_shape db now).1

theorem step_wf {db db' : DB} (hwf : WFdb db) (h : Step db db') : WFdb db' := by
  obtain ⟨hwp, hwr, hwn⟩ := hwf
  cases h with
  | create qf u p q now r =>
    rename_i hok
    obtain ⟨hpids, hres⟩ := create_shape hok
    refine ⟨by rw [hpids]; exact hwp, ?_, ?_⟩
    · rcases hres with ⟨hids, _⟩ | ⟨hids, _⟩
      · rw [hids]; exact hwr
      · rw [hids]
        have hnotin : db.nextId ∉ db.reservations.map Reservation.id := by
          intro hmem
          exact absurd (hwn _ hmem) (by omega)
        simp [List.nodup_append, hwr, hnotin]
    · rcases hres with ⟨hids, hn⟩ | ⟨hids, hn⟩
      · rw [hids, hn]; exact hwn
      · rw [hids, hn]
        intro j hj
        rcases List.mem_append.1 hj with hj | hj
        · exact Nat.lt_succ_of_lt (hwn j hj)
        · simp at hj; omega
  | complete i now r =>
    rename_i hok
    obtain ⟨hp, hids, hn⟩ := complete_shape hok
    exact ⟨by rw [hp]; exact hwp, by rw [hids]; exact hwr,
      by rw [hids, hn]; exact hwn⟩
  | cancel i now r =>
    rename_i hok
    obtain ⟨hp, hids, hn⟩ := cancel_shape hok
    exact ⟨by rw [hp]; exact hwp, by rw [hids]; exact hwr,
      by rw [hids, hn]; exact hwn⟩
  | expire i now =>
    obtain ⟨hp, hids, hn⟩ := expire_shape db i now
    exact ⟨by rw [hp]; exact hwp, by rw [hids]; exact hwr,
      by rw [hids, hn]; exact hwn⟩
  | sweep now =>
    obtain ⟨hp, hids, hn⟩ := sweep_shape db now
    exact ⟨by rw [hp]; exact hwp, by rw [hids]; exact hwr,
      by rw [hids, hn]; exact hwn⟩

theorem step_ledger {db db' : DB} (hwf : WFdb db) (h : Step db db') :
    ∀ pid, pid ∈ db.products.map Product.id → ledger db' pid = ledger db pid := by
  intro pid hpid
  cases h with
  | create qf u p q now r =>
    rename_i hok
    exact create_ledger hwf.2.1 hok pid
  | complete i now r =>
    rename_i hok
    exact complete_ledger hwf.2.1 hok pid
  | cancel i now r =>
    rename_i hok
    exact cancel_ledger hwf.2.1 hok pid hpid
  | expire i now => exact expire_ledger hwf.2.1 pid hpid
  | sweep now => exact sweep_ledger hwf.2.1 pid

theorem reachable_inv {db db' : DB} (h : Reachable db db') (hwf : WFdb db) :
    WFdb db' ∧ db'.products.map Product.id = db.products.map Product.id ∧
    ∀ pid, pid ∈ db.products.map Product.id → ledger db' pid = ledger db pid := by
  induction h with
  | refl => exact ⟨hwf, rfl, fun _ _ => rfl⟩
  | tail hr hstep ih =>
    obtain ⟨hwfb, hpids, hled⟩ := ih
    refine ⟨step_wf hwfb hstep, (step_pids hstep).trans hpids,
      fun pid hpid => ?_⟩
    rw [step_ledger hwfb hstep pid (by rw [hpids]; exact hpid), hled pid hpid]

/-! ### Single active row machinery -/

theorem pairwise_map_preserve {l : List Reservation} {f : Reservation → Reservation}
    (hf : ∀ x ∈ l, ((f x).userId = x.userId ∧ (f x).productId = x.productId ∧
      (f x).status = x.status) ∨ (f x).status ≠ ReservationStatus.ACTIVE)
    (h : List.Pairwise NoDupActivePair l) :
    List.Pairwise NoDupActivePair (l.map f) := by
  rw [List.pairwise_map]
  refine h.imp_of_mem ?_
  intro a b ha hb hab
  rintro ⟨h1, h2, h3, h4⟩
  rcases hf a ha with ⟨ua, pa, sa⟩ | hna
  · rcases hf b hb with ⟨ub, pb, sb⟩ | hnb
    · exact hab ⟨by rw [← ua, ← ub]; exact h1, by rw [← pa, ← pb]; exact h2,
        by rw [← sa]; exact h3, by rw [← sb]; exact h4⟩
    · exact hnb h4
  · exact hna h3

theorem save_terminal_atMostOne {db : DB} {r' : Reservation}
    (hterm : r'.status ≠ ReservationStatus.ACTIVE)
    (hP : atMostOneActive db) : atMostOneActive (saveReservation db r') := by
  show List.Pairwise NoDupActivePair
    (db.reservations.map (fun x => if x.id = r'.id then r' else x))
  refine pairwise_map_preserve ?_ hP
  intro x _
  by_cases hxe : x.id = r'.id
  · right; rw [if_pos hxe]; exact hterm
  · left; rw [if_neg hxe]; exact ⟨rfl, rfl, rfl⟩

theorem create_atMostOne {qf : Bool} {db : DB} {u : String} {pid0 : Nat}
    {q : Int} {now : Nat} {r : Reservation} {db' : DB} (hwf : WFdb db)
    (hP : atMostOneActive db)
    (h : ReservationsService.createReservationQ qf db u pid0 q now =
      Except.ok (r, db')) : atMostOneActive db' := by
  obtain ⟨product, hp, _, _, hbr⟩ := createQ_ok h
  rcases hbr with ⟨e, he, hr, hdb⟩ | ⟨hnone, hqf, hr, hdb⟩
  · obtain ⟨hemem, heu, hep, heA⟩ := lookupActive_mem he
    subst hr; subst hdb
    show List.Pairwise NoDupActivePair
      ((db.reservations.map (fun x =>
        if x.id = ({ e with
          quantity := e.quantity + q,
          expiresAt := now + TTL } : Reservation).id then
          { e with
            quantity := e.quantity + q,
            expiresAt := now + TTL }
        else x)).map (fun x =>
        if x.userId = u ∧ x.status = ReservationStatus.ACTIVE
        then { x with expiresAt := now + TTL } else x))
    refine pairwise_map_preserve ?_ (pairwise_map_preserve ?_ hP)
    · intro x _
      by_cases hc : x.userId = u ∧ x.status = ReservationStatus.ACTIVE
      · left; rw [if_pos hc]; exact ⟨rfl, rfl, rfl⟩
      · left; rw [if_neg hc]; exact ⟨rfl, rfl, rfl⟩
    · intro x hx
      by_cases hxe : x.id = ({ e with
          quantity := e.quantity + q,
          expiresAt := now + TTL } : Reservation).id
      · have hxeq : x = e :=
          List.inj_on_of_nodup_map hwf.2.1 hx hemem hxe
        subst hxeq
        left; rw [if_pos hxe]; exact ⟨rfl, rfl, rfl⟩
      · left; rw [if_neg hxe]; exact ⟨rfl, rfl, rfl⟩
  · subst hr; subst hdb
    show List.Pairwise NoDupActivePair
      ((db.reservations ++
        [({ id := db.nextId, productId := pid0, userId := u, quantity := q,
            status := ReservationStatus.ACTIVE, createdAt := now,
            expiresAt := now + TTL } : Reservation)]).map (fun x =>
        if x.userId = u ∧ x.status = ReservationStatus.ACTIVE
        then { x with expiresAt := now + TTL } else x))
    refine pairwise_map_preserve ?_ ?_
    · intro x _
      by_cases hc : x.userId = u ∧ x.status = ReservationStatus.ACTIVE
      · left; rw [if_pos hc]; exact ⟨rfl, rfl, rfl⟩
      · left; rw [if_neg hc]; exact ⟨rfl, rfl, rfl⟩
    · rw [List.pairwise_append]
      refine ⟨hP, List.pairwise_singleton _ _, ?_⟩
      intro a ha b hb
      simp only [List.mem_singleton] at hb
      subst hb
      rintro ⟨h1, h2, h3, _⟩
      exact lookupActive_eq_none hnone a ha ⟨h1, h2, h3⟩

theorem step_atMostOne {db db' : DB} (hwf : WFdb db)
    (hP : atMostOneActive db) (h : Step db db') : atMostOneActive db' := by
  cases h with
  | create qf u p q now r =>
    rename_i hok
    exact create_atMostOne hwf hP hok
  | complete i now r =>
    rename_i hok
    obtain ⟨rc, hl, hcase⟩ := complete_ok hok
    rcases hcase with ⟨_, _, hdb⟩ | ⟨_, _, hr, hdb⟩
    · rw [hdb]; exact hP
    · subst hr; subst hdb
      exact save_terminal_atMostOne (by simp) hP
  | cancel i now r =>
    rename_i hok
    obtain ⟨rc, hl, hcase⟩ := cancel_ok hok
    rcases hcase with ⟨_, _, hdb⟩ | ⟨_, hr, hdb⟩
    · rw [hdb]; exact hP
    · subst hr; subst hdb
      have hX : atMostOneActive (releaseStock db rc.productId rc.quantity) := by
        unfold atMostOneActive
        rw [releaseStock_reservations]
        exact hP
      exact save_terminal_atMostOne (by simp) hX
  | expire i now =>
    cases hl : lookupReservation db.reservations i with
    | none => rw [expire_absent hl]; exact hP
    | some rc =>
      by_cases hA : rc.status = ReservationStatus.ACTIVE
      · by_cases hf : now < rc.expiresAt
        · rw [expire_future hl hA hf]; exact hP
        · rw [expire_fire hl hA (by omega)]
          have hX : atMostOneActive
              (releaseStock db rc.productId rc.quantity) := by
            unfold atMostOneActive
            rw [releaseStock_reservations]
            exact hP
          exact save_terminal_atMostOne (by simp) hX
      · rw [expire_not_active hl hA]; exact hP
  | sweep now =>
    rw [sweep_eq_foldl]
    generalize ReservationsCleanupService.overdue db now = snap
    clear hwf
    induction snap generalizing db with
    | nil => exact hP
    | cons s rest ih =>
      simp only [List.foldl]
      refine ih ?_
      unfold ReservationsCleanupService.sweepStep
      cases hpr : lookupProduct db.products s.productId with
      | none => exact hP
      | some p =>
        have hX : atMostOneActive (saveProduct db
            { p with availableStock := p.availableStock + s.quantity }) := hP
        exact save_terminal_atMostOne (by simp) hX

theorem reachable_atMostOne {db db' : DB} (h : Reachable db db')
    (hwf : WFdb db) (hP : atMostOneActive db) : atMostOneActive db' := by
  induction h with
  | refl => exact hP
  | tail hr hstep ih => exact step_atMostOne ((reachable_inv hr hwf).1) ih hstep

/-! ### Terminal rows are never touched again -/

theorem lookup_save_of_ne {db : DB} {r' : Reservation} {i : Nat}
    {rr : Reservation} (h : lookupReservation db.reservations i = some rr)
    (hne : r'.id ≠ i) :
    lookupReservation (saveReservation db r').reservations i = some rr := by
  rw [saveReservation_reservations, lookupReservation_map
    (by intro x; by_cases hx : x.id = r'.id <;> simp [hx]) _ i, h]
  simp only [Option.map_some']
  have hrr : rr.id ≠ r'.id := by
    rw [(lookupReservation_mem h).2]
    exact fun hh => hne hh.symm
  simp [hrr]

theorem lookup_renew_of_skip {db : DB} {u : String} {E i : Nat}
    {rr : Reservation} (h : lookupReservation db.reservations i = some rr)
    (hna : ¬(rr.userId = u ∧ rr.status = ReservationStatus.ACTIVE)) :
    lookupReservation (renewAllActive db u E).reservations i = some rr := by
  rw [renewAllActive_reservations, lookupReservation_map
    (by intro x
        by_cases hx : x.userId = u ∧ x.status = ReservationStatus.ACTIVE <;>
          simp [hx]) _ i, h]
  simp only [Option.map_some']
  rw [if_neg hna]

theorem step_keeps_row {db db' : DB} (hwf : WFdb db) (hstep : Step db db')
    {i : Nat} {r : Reservation}
    (hl : lookupReservation db.reservations i = some r)
    (hterm : r.status ≠ ReservationStatus.ACTIVE) :
    lookupReservation db'.reservations i = some r := by
  have hrid : r.id = i := (lookupReservation_mem hl).2
  have hrmem : r ∈ db.reservations := (lookupReservation_mem hl).1
  have hna : ∀ u : String,
      ¬(r.userId = u ∧ r.status = ReservationStatus.ACTIVE) :=
    fun u hc => hterm hc.2
  cases hstep with
  | create qf u p q now rr =>
    rename_i hok
    obtain ⟨product, hp, _, _, hbr⟩ := createQ_ok hok
    rcases hbr with ⟨e, he, hr, hdb⟩ | ⟨hnone, hqf, hr, hdb⟩
    · obtain ⟨hemem, heu, hep, heA⟩ := lookupActive_mem he
      subst hr; subst hdb
      have hene : ({ e with
          quantity := e.quantity + q,
          expiresAt := now + TTL } : Reservation).id ≠ i := by
        show e.id ≠ i
        intro hei
        have : e = r :=
          List.inj_on_of_nodup_map hwf.2.1 hemem hrmem (hei.trans hrid.symm)
        rw [this] at heA
        exact hterm heA
      exact lookup_renew_of_skip (lookup_save_of_ne hl hene) (hna u)
    · subst hr; subst hdb
      have happ : lookupReservation (db.reservations ++
          [({ id := db.nextId, productId := p, userId := u, quantity := q,
              status := ReservationStatus.ACTIVE, createdAt := now,
              expiresAt := now + TTL } : Reservation)]) i = some r :=
        lookupReservation_append_left hl
      exact lookup_renew_of_skip happ (hna u)
  | complete iop now rr =>
    rename_i hok
    obtain ⟨rc, hlc, hcase⟩ := complete_ok hok
    rcases hcase with ⟨_, _, hdb⟩ | ⟨hA, _, hr, hdb⟩
    · rw [hdb]; exact hl
    · subst hr; subst hdb
      have hne : ({ rc with status := ReservationStatus.COMPLETED } :
          Reservation).id ≠ i := by
        show rc.id ≠ i
        intro hei
        have hrcmem : rc ∈ db.reservations := (lookupReservation_mem hlc).1
        have : rc = r :=
          List.inj_on_of_nodup_map hwf.2.1 hrcmem hrmem (hei.trans hrid.symm)
        rw [this] at hA
        exact hterm hA
      exact lookup_save_of_ne hl hne
  | cancel iop now rr =>
    rename_i hok
    obtain ⟨rc, hlc, hcase⟩ := cancel_ok hok
    rcases hcase with ⟨_, _, hdb⟩ | ⟨hA, hr, hdb⟩
    · rw [hdb]; exact hl
    · subst hr; subst hdb
      have hlr : lookupReservation
          (releaseStock db rc.productId rc.quantity).reservations i = some r := by
        rw [releaseStock_reservations]; exact hl
      have hne : ({ rc with
          status := ReservationStatus.EXPIRED,
          expiresAt := now } : Reservation).id ≠ i := by
        show rc.id ≠ i
        intro hei
        have hrcmem : rc ∈ db.reservations := (lookupReservation_mem hlc).1
        have : rc = r :=
          List.inj_on_of_nodup_map hwf.2.1 hrcmem hrmem (hei.trans hrid.symm)
        rw [this] at hA
        exact hterm hA
      exact lookup_save_of_ne hlr hne
  | expire iop now =>
    cases hlc : lookupReservation db.reservations iop with
    | none => rw [expire_absent hlc]; exact hl
    | some rc =>
      by_cases hA : rc.status = ReservationStatus.ACTIVE
      · by_cases hfut : now < rc.expiresAt
        · rw [expire_future hlc hA hfut]; exact hl
        · rw [expire_fire hlc hA (by omega)]
          have hlr : lookupReservation
              (releaseStock db rc.productId rc.quantity).reservations i =
              some r := by
            rw [releaseStock_reservations]; exact hl
          have hne : ({ rc with
              status := ReservationStatus.EXPIRED,
              expiresAt := now } : Reservation).id ≠ i := by
            show rc.id ≠ i
            intro hei
            have hrcmem : rc ∈ db.reservations := (lookupReservation_mem hlc).1
            have : rc = r :=
              List.inj_on_of_nodup_map hwf.2.1 hrcmem hrmem
                (hei.trans hrid.symm)
            rw [this] at hA
            exact hterm hA
          exact lookup_save_of_ne hlr hne
      · rw [expire_not_active hlc hA]; exact hl
  | sweep now =>
    rw [sweep_eq_foldl]
    refine sweepFold_lookup_miss _ db i r hl ?_
    intro s hs
    unfold ReservationsCleanupService.overdue at hs
    have hsmem := (List.mem_filter.1 hs).1
    have hspred := of_decide_eq_true (List.mem_filter.1 hs).2
    intro hsi
    have : s = r :=
      List.inj_on_of_nodup_map hwf.2.1 hsmem hrmem (hsi.trans hrid.symm)
    rw [this] at hspred
    exact hterm hspred.1

theorem reachable_keeps_row {db db' : DB} (h : Reachable db db')
    (hwf : WFdb db) {i : Nat} {r : Reservation}
    (hl : lookupReservation db.reservations i = some r)
    (hterm : r.status ≠ ReservationStatus.ACTIVE) :
    lookupReservation db'.reservations i = some r := by
  induction h with
  | refl => exact hl
  | tail hr hstep ih =>
    exact step_keeps_row ((reachable_inv hr hwf).1) hstep ih hterm

/-! ### Claim theorems -/

/-- C1 counterexample: the conservation equation as stated —
`availableStock + Σ(ACTIVE quantities) = initial stock` — fails at a
committed state reachable from a freshly seeded product by one
`createReservation` followed by one successful `completeReservation`:
completion removes the quantity from the ACTIVE sum without returning it
to `availableStock` (the sale is final), leaving 6 + 0 ≠ 10. -/
theorem stock_conservation_as_stated_false :
    ∃ db' : DB, Reachable ⟨[⟨1, 10⟩], [], 0⟩ db' ∧
      stockOf db' 1 + activeSum 1 db'.reservations ≠
        stockOf ⟨[⟨1, 10⟩], [], 0⟩ 1 := by
  refine ⟨⟨[⟨1, 6⟩],
    [⟨0, 1, "u1", 4, ReservationStatus.COMPLETED, 0, 120000⟩], 1⟩, ?_, by decide⟩
  have step1 : Step ⟨[⟨1, 10⟩], [], 0⟩
      ⟨[⟨1, 6⟩], [⟨0, 1, "u1", 4, ReservationStatus.ACTIVE, 0, 120000⟩], 1⟩ :=
    Step.create false "u1" 1 4 0
      ⟨0, 1, "u1", 4, ReservationStatus.ACTIVE, 0, 120000⟩
      ⟨[⟨1, 10⟩], [], 0⟩
      ⟨[⟨1, 6⟩], [⟨0, 1, "u1", 4, ReservationStatus.ACTIVE, 0, 120000⟩], 1⟩
      rfl
  have step2 : Step
      ⟨[⟨1, 6⟩], [⟨0, 1, "u1", 4, ReservationStatus.ACTIVE, 0, 120000⟩], 1⟩
      ⟨[⟨1, 6⟩], [⟨0, 1, "u1", 4, ReservationStatus.COMPLETED, 0, 120000⟩], 1⟩ :=
    Step.complete 0 1
      ⟨0, 1, "u1", 4, ReservationStatus.COMPLETED, 0, 120000⟩
      ⟨[⟨1, 6⟩], [⟨0, 1, "u1", 4, ReservationStatus.ACTIVE, 0, 120000⟩], 1⟩
      ⟨[⟨1, 6⟩], [⟨0, 1, "u1", 4, ReservationStatus.COMPLETED, 0, 120000⟩], 1⟩
      rfl
  exact Relation.ReflTransGen.tail (Relation.ReflTransGen.single step1) step2

/-- C1 (amended): stock is conserved once sold quantities are counted: for
every product row, at every committed state reachable from a well-formed
state with no reservations, `availableStock + Σ(ACTIVE quantities) +
Σ(COMPLETED quantities)` equals the product's initial stock. -/
theorem stock_conservation_with_completed :
    ∀ db db' : DB, WFdb db → db.reservations = [] → Reachable db db' →
    ∀ p ∈ db'.products,
      p.availableStock + activeSum p.id db'.reservations +
        completedSum p.id db'.reservations = stockOf db p.id := by
  intro db db' hwf hempty h p hp
  obtain ⟨hwf', hpids, hled⟩ := reachable_inv h hwf
  have hmemid : p.id ∈ db.products.map Product.id := by
    rw [← hpids]; exact List.mem_map_of_mem Product.id hp
  have hled' := hled p.id hmemid
  unfold ledger at hled'
  have hstock' : stockOf db' p.id = p.availableStock := by
    unfold stockOf; rw [lookupProduct_self hwf'.1 hp]
  rw [hstock'] at hled'
  rw [hempty] at hled'
  have hz1 : activeSum p.id ([] : List Reservation) = 0 := rfl
  have hz2 : completedSum p.id ([] : List Reservation) = 0 := rfl
  rw [hz1, hz2] at hled'
  omega

/-- C1 witness: one `createReservation` on a seeded product; the reached
state satisfies the amended conservation equation. -/
theorem stock_conservation_with_completed_witness :
    (⟨1, 6⟩ : Product).availableStock +
      activeSum (⟨1, 6⟩ : Product).id
        (⟨[⟨1, 6⟩], [⟨0, 1, "u1", 4, ReservationStatus.ACTIVE, 0, 120000⟩], 1⟩
          : DB).reservations +
      completedSum (⟨1, 6⟩ : Product).id
        (⟨[⟨1, 6⟩], [⟨0, 1, "u1", 4, ReservationStatus.ACTIVE, 0, 120000⟩], 1⟩
          : DB).reservations =
      stockOf ⟨[⟨1, 10⟩], [], 0⟩ (⟨1, 6⟩ : Product).id :=
  stock_conservation_with_completed ⟨[⟨1, 10⟩], [], 0⟩
    ⟨[⟨1, 6⟩], [⟨0, 1, "u1", 4, ReservationStatus.ACTIVE, 0, 120000⟩], 1⟩
    (by decide) rfl
    (Relation.ReflTransGen.single (Step.create false "u1" 1 4 0
      ⟨0, 1, "u1", 4, ReservationStatus.ACTIVE, 0, 120000⟩
      ⟨[⟨1, 10⟩], [], 0⟩
      ⟨[⟨1, 6⟩], [⟨0, 1, "u1", 4, ReservationStatus.ACTIVE, 0, 120000⟩], 1⟩
      rfl))
    ⟨1, 6⟩ (by decide)

/-- C2: what the code actually does for an ACTIVE reservation whose
`expiresAt` (100) is at or before the current time (200).  The
controller-wired `completeReservation` (reservations.service.ts) restores
stock and marks the row EXPIRED but then throws inside the same
transaction, so those writes are rolled back: the call fails with
AlreadyExpired while the committed state keeps the row ACTIVE and the
stock unreleased — the release and transition the claim describes never
commit.  The second copy (products.service.ts) commits the release and the
EXPIRED transition but returns them as a success instead of failing.
Neither variant performs the claimed "release + transition + fail". -/
theorem complete_past_deadline_code_behaviour :
    ReservationsService.completeReservation
      ⟨[⟨1, 6⟩], [⟨1, 1, "u1", 4, ReservationStatus.ACTIVE, 0, 100⟩], 2⟩ 1 200 =
      Except.error (SvcError.BadRequest "Reservation already expired") ∧
    ReservationsServiceB.completeReservation
      ⟨[⟨1, 6⟩], [⟨1, 1, "u1", 4, ReservationStatus.ACTIVE, 0, 100⟩], 2⟩ 1 200 =
      Except.ok (⟨1, 1, "u1", 4, ReservationStatus.EXPIRED, 0, 200⟩,
        ⟨[⟨1, 10⟩], [⟨1, 1, "u1", 4, ReservationStatus.EXPIRED, 0, 200⟩], 2⟩) :=
  ⟨rfl, rfl⟩

/-- C3: at most one ACTIVE reservation per (userId, productId) pair holds
at every committed reachable state, and a `createReservation` that finds an
existing ACTIVE reservation for the pair merges into that row — same id,
quantity increased by the request, `expiresAt` reset to `now + TTL` — and
inserts no second row (the table length is unchanged). -/
theorem single_active_row :
    (∀ db db' : DB, WFdb db → atMostOneActive db → Reachable db db' →
      atMostOneActive db') ∧
    (∀ (qf : Bool) (db : DB) (u : String) (pid : Nat) (q : Int) (now : Nat)
      (e r : Reservation) (db' : DB),
      lookupActive db.reservations u pid = some e →
      ReservationsService.createReservationQ qf db u pid q now =
        Except.ok (r, db') →
      r.id = e.id ∧ r.quantity = e.quantity + q ∧ r.expiresAt = now + TTL ∧
      db'.reservations.length = db.reservations.length) := by
  constructor
  · intro db db' hwf hP h
    exact reachable_atMostOne h hwf hP
  · intro qf db u pid q now e r db' he hok
    obtain ⟨product, hp, _, _, hbr⟩ := createQ_ok hok
    rcases hbr with ⟨e2, he2, hr, hdb⟩ | ⟨hnone, _, _, _⟩
    · rw [he] at he2
      injection he2 with he2
      subst he2
      subst hr; subst hdb
      refine ⟨rfl, rfl, rfl, ?_⟩
      rw [renewAllActive_reservations, saveReservation_reservations,
        saveProduct_reservations, List.length_map, List.length_map]
    · rw [hnone] at he; cases he

/-- C3 witness: a state with one ACTIVE row merging a second request for
the same user and product. -/
theorem single_active_row_witness :
    atMostOneActive
      ⟨[⟨1, 6⟩], [⟨0, 1, "u1", 4, ReservationStatus.ACTIVE, 0, 120000⟩], 1⟩ ∧
    ((⟨0, 1, "u1", 7, ReservationStatus.ACTIVE, 0, 120050⟩ :
        Reservation).id =
      (⟨0, 1, "u1", 4, ReservationStatus.ACTIVE, 0, 120000⟩ :
        Reservation).id ∧
     (⟨0, 1, "u1", 7, ReservationStatus.ACTIVE, 0, 120050⟩ :
        Reservation).quantity =
      (⟨0, 1, "u1", 4, ReservationStatus.ACTIVE, 0, 120000⟩ :
        Reservation).quantity + 3 ∧
     (⟨0, 1, "u1", 7, ReservationStatus.ACTIVE, 0, 120050⟩ :
        Reservation).expiresAt = 50 + TTL ∧
     (⟨[⟨1, 3⟩], [⟨0, 1, "u1", 7, ReservationStatus.ACTIVE, 0, 120050⟩], 1⟩
        : DB).reservations.length =
      (⟨[⟨1, 6⟩], [⟨0, 1, "u1", 4, ReservationStatus.ACTIVE, 0, 120000⟩], 1⟩
        : DB).reservations.length) :=
  ⟨single_active_row.1
      ⟨[⟨1, 6⟩], [⟨0, 1, "u1", 4, ReservationStatus.ACTIVE, 0, 120000⟩], 1⟩
      ⟨[⟨1, 6⟩], [⟨0, 1, "u1", 4, ReservationStatus.ACTIVE, 0, 120000⟩], 1⟩
      (by decide) (by decide) Relation.ReflTransGen.refl,
   single_active_row.2 false
      ⟨[⟨1, 6⟩], [⟨0, 1, "u1", 4, ReservationStatus.ACTIVE, 0, 120000⟩], 1⟩
      "u1" 1 3 50
      ⟨0, 1, "u1", 4, ReservationStatus.ACTIVE, 0, 120000⟩
      ⟨0, 1, "u1", 7, ReservationStatus.ACTIVE, 0, 120050⟩
      ⟨[⟨1, 3⟩], [⟨0, 1, "u1", 7, ReservationStatus.ACTIVE, 0, 120050⟩], 1⟩
      (by decide) rfl⟩

/-- C4: terminal monotonicity — a reservation row that is COMPLETED or
EXPIRED keeps its status and quantity at every committed state reachable
by any sequence of operations. -/
theorem terminal_monotonicity :
    ∀ (db db' : DB) (i : Nat) (r : Reservation), WFdb db → Reachable db db' →
    lookupReservation db.reservations i = some r →
    (r.status = ReservationStatus.COMPLETED ∨
     r.status = ReservationStatus.EXPIRED) →
    ∃ r', lookupReservation db'.reservations i = some r' ∧
      r'.status = r.status ∧ r'.quantity = r.quantity := by
  intro db db' i r hwf h hl hterm
  have hna : r.status ≠ ReservationStatus.ACTIVE := by
    rcases hterm with h1 | h1 <;> rw [h1] <;> simp
  exact ⟨r, reachable_keeps_row h hwf hl hna, rfl, rfl⟩

/-- C4 witness: an EXPIRED row survives a sweep pass unchanged. -/
theorem terminal_monotonicity_witness :
    ∃ r', lookupReservation
      (ReservationsCleanupService.expireOverdueReservations
        ⟨[⟨1, 4⟩], [⟨0, 1, "u1", 2, ReservationStatus.EXPIRED, 0, 33⟩], 1⟩
        50).reservations 0 = some r' ∧
      r'.status = (⟨0, 1, "u1", 2, ReservationStatus.EXPIRED, 0, 33⟩ :
        Reservation).status ∧
      r'.quantity = (⟨0, 1, "u1", 2, ReservationStatus.EXPIRED, 0, 33⟩ :
        Reservation).quantity :=
  terminal_monotonicity
    ⟨[⟨1, 4⟩], [⟨0, 1, "u1", 2, ReservationStatus.EXPIRED, 0, 33⟩], 1⟩
    (ReservationsCleanupService.expireOverdueReservations
      ⟨[⟨1, 4⟩], [⟨0, 1, "u1", 2, ReservationStatus.EXPIRED, 0, 33⟩], 1⟩ 50)
    0 ⟨0, 1, "u1", 2, ReservationStatus.EXPIRED, 0, 33⟩
    (by decide)
    (Relation.ReflTransGen.single (Step.sweep 50
      ⟨[⟨1, 4⟩], [⟨0, 1, "u1", 2, ReservationStatus.EXPIRED, 0, 33⟩], 1⟩))
    (by decide) (Or.inr rfl)

/-- C5: `expireReservation` is idempotent — running it twice in sequence
leaves exactly the state of running it once — and it is a strict no-op
(the committed state is unchanged) when the reservation is absent, when it
is no longer ACTIVE, and when its `expiresAt` is still in the future
(stale timer firing discarded). -/
theorem expire_idempotent_and_noop :
    (∀ (db : DB) (i now : Nat),
      (ReservationsServiceB.expireReservation
        (ReservationsServiceB.expireReservation db i now).2 i now).2 =
      (ReservationsServiceB.expireReservation db i now).2) ∧
    (∀ (db : DB) (i now : Nat), lookupReservation db.reservations i = none →
      (ReservationsServiceB.expireReservation db i now).2 = db) ∧
    (∀ (db : DB) (i now : Nat) (r : Reservation),
      lookupReservation db.reservations i = some r →
      r.status ≠ ReservationStatus.ACTIVE →
      (ReservationsServiceB.expireReservation db i now).2 = db) ∧
    (∀ (db : DB) (i now : Nat) (r : Reservation),
      lookupReservation db.reservations i = some r →
      r.status = ReservationStatus.ACTIVE → now < r.expiresAt →
      (ReservationsServiceB.expireReservation db i now).2 = db) := by
  refine ⟨?_, ?_, ?_, ?_⟩
  · intro db i now
    cases hl : lookupReservation db.reservations i with
    | none =>
      rw [expire_absent hl]
      show (ReservationsServiceB.expireReservation db i now).2 = db
      rw [expire_absent hl]
    | some r =>
      by_cases hA : r.status = ReservationStatus.ACTIVE
      · by_cases hf : now < r.expiresAt
        · rw [expire_future hl hA hf]
          show (ReservationsServiceB.expireReservation db i now).2 = db
          rw [expire_future hl hA hf]
        · rw [expire_fire hl hA (by omega)]
          show (ReservationsServiceB.expireReservation
            (saveReservation (releaseStock db r.productId r.quantity)
              { r with
                status := ReservationStatus.EXPIRED,
                expiresAt := now }) i now).2 =
            saveReservation (releaseStock db r.productId r.quantity)
              { r with
                status := ReservationStatus.EXPIRED,
                expiresAt := now }
          have hl2 : lookupReservation
              (saveReservation (releaseStock db r.productId r.quantity)
                { r with
                  status := ReservationStatus.EXPIRED,
                  expiresAt := now }).reservations i =
              some { r with
                status := ReservationStatus.EXPIRED,
                expiresAt := now } := by
            rw [saveReservation_reservations, releaseStock_reservations,
              lookupReservation_map
                (by intro x
                    by_cases hx : x.id = ({ r with
                      status := ReservationStatus.EXPIRED,
                      expiresAt := now } : Reservation).id <;> simp [hx]) _ i,
              hl]
            simp
          rw [expire_not_active hl2 (by simp)]
      · rw [expire_not_active hl hA]
        show (ReservationsServiceB.expireReservation db i now).2 = db
        rw [expire_not_active hl hA]
  · intro db i now h
    rw [expire_absent h]
  · intro db i now r h hA
    rw [expire_not_active h hA]
  · intro db i now r h hA hf
    rw [expire_future h hA hf]

/-- C5 witness: one overdue firing followed by a duplicate, plus the three
no-op situations, on concrete states. -/
theorem expire_idempotent_and_noop_witness :
    (ReservationsServiceB.expireReservation
      (ReservationsServiceB.expireReservation
        ⟨[⟨1, 0⟩], [⟨3, 1, "u1", 2, ReservationStatus.ACTIVE, 0, 10⟩], 4⟩
        3 50).2 3 50).2 =
      (ReservationsServiceB.expireReservation
        ⟨[⟨1, 0⟩], [⟨3, 1, "u1", 2, ReservationStatus.ACTIVE, 0, 10⟩], 4⟩
        3 50).2 ∧
    (ReservationsServiceB.expireReservation
      ⟨[⟨1, 0⟩], [⟨3, 1, "u1", 2, ReservationStatus.ACTIVE, 0, 10⟩], 4⟩
      99 50).2 =
      ⟨[⟨1, 0⟩], [⟨3, 1, "u1", 2, ReservationStatus.ACTIVE, 0, 10⟩], 4⟩ ∧
    (ReservationsServiceB.expireReservation
      ⟨[⟨1, 2⟩], [⟨4, 1, "u2", 1, ReservationStatus.EXPIRED, 0, 10⟩], 5⟩
      4 50).2 =
      ⟨[⟨1, 2⟩], [⟨4, 1, "u2", 1, ReservationStatus.EXPIRED, 0, 10⟩], 5⟩ ∧
    (ReservationsServiceB.expireReservation
      ⟨[⟨1, 0⟩], [⟨3, 1, "u1", 2, ReservationStatus.ACTIVE, 0, 10⟩], 4⟩
      3 5).2 =
      ⟨[⟨1, 0⟩], [⟨3, 1, "u1", 2, ReservationStatus.ACTIVE, 0, 10⟩], 4⟩ :=
  ⟨expire_idempotent_and_noop.1
      ⟨[⟨1, 0⟩], [⟨3, 1, "u1", 2, ReservationStatus.ACTIVE, 0, 10⟩], 4⟩ 3 50,
   expire_idempotent_and_noop.2.1
      ⟨[⟨1, 0⟩], [⟨3, 1, "u1", 2, ReservationStatus.ACTIVE, 0, 10⟩], 4⟩ 99 50
      (by decide),
   expire_idempotent_and_noop.2.2.1
      ⟨[⟨1, 2⟩], [⟨4, 1, "u2", 1, ReservationStatus.EXPIRED, 0, 10⟩], 5⟩ 4 50
      ⟨4, 1, "u2", 1, ReservationStatus.EXPIRED, 0, 10⟩ (by decide) (by decide),
   expire_idempotent_and_noop.2.2.2
      ⟨[⟨1, 0⟩], [⟨3, 1, "u1", 2, ReservationStatus.ACTIVE, 0, 10⟩], 4⟩ 3 5
      ⟨3, 1, "u1", 2, ReservationStatus.ACTIVE, 0, 10⟩ (by decide) rfl
      (by decide)⟩

theorem renewAllActive_post (X : DB) (u : String) (E : Nat) :
    ∀ res ∈ (renewAllActive X u E).reservations, res.userId = u →
      res.status = ReservationStatus.ACTIVE → res.expiresAt = E := by
  intro res hres hu hA
  rw [renewAllActive_reservations] at hres
  obtain ⟨x, hx, hfx⟩ := List.mem_map.1 hres
  by_cases hc : x.userId = u ∧ x.status = ReservationStatus.ACTIVE
  · rw [if_pos hc] at hfx
    rw [← hfx]
  · rw [if_neg hc] at hfx
    subst hfx
    exact absurd ⟨hu, hA⟩ hc

/-- C6: after every successful `createReservation(userId, ...)`, every
ACTIVE reservation of that user — for any product — carries the same new
deadline `now + 120000` ms (now + TTL, TTL = 120 seconds). -/
theorem session_wide_renewal :
    ∀ (qf : Bool) (db : DB) (u : String) (pid : Nat) (q : Int) (now : Nat)
      (r : Reservation) (db' : DB),
      ReservationsService.createReservationQ qf db u pid q now =
        Except.ok (r, db') →
      ∀ res ∈ db'.reservations, res.userId = u →
        res.status = ReservationStatus.ACTIVE →
        res.expiresAt = now + 120000 := by
  intro qf db u pid q now r db' hok res hres hu hA
  obtain ⟨product, hp, _, _, hbr⟩ := createQ_ok hok
  rcases hbr with ⟨e, he, hr, hdb⟩ | ⟨hnone, _, hr, hdb⟩
  · subst hr; subst hdb
    exact renewAllActive_post _ u (now + TTL) res hres hu hA
  · subst hr; subst hdb
    exact renewAllActive_post _ u (now + TTL) res hres hu hA

/-- C6 witness: reserving product 1 renews the user's ACTIVE reservation
on product 2 to the same new deadline. -/
theorem session_wide_renewal_witness :
    (⟨7, 2, "u1", 1, ReservationStatus.ACTIVE, 0, 121000⟩ :
      Reservation).expiresAt = 1000 + 120000 :=
  session_wide_renewal false
    ⟨[⟨1, 5⟩, ⟨2, 5⟩], [⟨7, 2, "u1", 1, ReservationStatus.ACTIVE, 0, 30⟩], 8⟩
    "u1" 1 2 1000
    ⟨8, 1, "u1", 2, ReservationStatus.ACTIVE, 1000, 121000⟩
    ⟨[⟨1, 3⟩, ⟨2, 5⟩],
      [⟨7, 2, "u1", 1, ReservationStatus.ACTIVE, 0, 121000⟩,
       ⟨8, 1, "u1", 2, ReservationStatus.ACTIVE, 1000, 121000⟩], 9⟩
    rfl
    ⟨7, 2, "u1", 1, ReservationStatus.ACTIVE, 0, 121000⟩
    (by decide) rfl rfl

/-- C7 counterexample: two overdue ACTIVE reservations in one pass.
Without failures the pass expires reservation 1; with a failure injected
only while processing reservation 2, the committed state equals the
pre-pass state — reservation 1's expiry is aborted and undone along with
the rest of the pass, because the whole pass runs in a single transaction. -/
theorem sweep_isolation_as_stated_false :
    lookupReservation (ReservationsCleanupService.expireOverdueReservationsF []
      ⟨[⟨1, 0⟩], [⟨1, 1, "u1", 2, ReservationStatus.ACTIVE, 0, 10⟩,
        ⟨2, 1, "u2", 3, ReservationStatus.ACTIVE, 0, 10⟩], 3⟩
      100).reservations 1 =
      some ⟨1, 1, "u1", 2, ReservationStatus.EXPIRED, 0, 10⟩ ∧
    ReservationsCleanupService.expireOverdueReservationsF [2]
      ⟨[⟨1, 0⟩], [⟨1, 1, "u1", 2, ReservationStatus.ACTIVE, 0, 10⟩,
        ⟨2, 1, "u2", 3, ReservationStatus.ACTIVE, 0, 10⟩], 3⟩ 100 =
      ⟨[⟨1, 0⟩], [⟨1, 1, "u1", 2, ReservationStatus.ACTIVE, 0, 10⟩,
        ⟨2, 1, "u2", 3, ReservationStatus.ACTIVE, 0, 10⟩], 3⟩ :=
  ⟨by decide, by decide⟩

theorem sweepGo_aborts (failIds : List Nat) :
    ∀ (snap : List Reservation) (db : DB),
    (∃ s ∈ snap, s.id ∈ failIds ∧ s.productId ∈ db.products.map Product.id) →
    ReservationsCleanupService.sweepGo failIds snap db = none := by
  intro snap
  induction snap with
  | nil =>
    rintro db ⟨s, hs, _⟩
    cases hs
  | cons s0 rest ih =>
    rintro db ⟨s, hs, hfail, hprod⟩
    cases hp : lookupProduct db.products s0.productId with
    | none =>
      rcases List.mem_cons.1 hs with hrfl | hmem
      · subst hrfl
        exact absurd hprod (lookupProduct_eq_none.1 hp)
      · simp only [ReservationsCleanupService.sweepGo, hp]
        exact ih db ⟨s, hmem, hfail, hprod⟩
    | some p =>
      by_cases hf0 : s0.id ∈ failIds
      · simp [ReservationsCleanupService.sweepGo, hp, hf0]
      · simp only [ReservationsCleanupService.sweepGo, hp, if_neg hf0]
        have hsrest : s ∈ rest := by
          rcases List.mem_cons.1 hs with hrfl | hmem
          · subst hrfl; exact absurd hfail hf0
          · exact hmem
        refine ih _ ⟨s, hsrest, hfail, ?_⟩
        have hpids : (saveReservation (saveProduct db
            { p with availableStock := p.availableStock + s0.quantity })
            { s0 with status := ReservationStatus.EXPIRED }).products.map
            Product.id = db.products.map Product.id := by
          rw [saveReservation_products]
          exact map_pids_of_id_preserving (by
            intro x
            by_cases hx : x.id = ({ p with
              availableStock := p.availableStock + s0.quantity } :
              Product).id <;> simp [hx]) _
        rw [hpids]
        exact hprod

/-- C7 (amended): the sweep handles each pass in ONE transaction, not one
per reservation: if processing any overdue ACTIVE reservation of the pass
fails (its product exists and its save throws), the entire pass rolls back
and the committed state is exactly the pre-pass state; no reservation of
the pass has its expiry committed. -/
theorem sweep_single_transaction :
    ∀ (db : DB) (now : Nat) (failIds : List Nat),
    (∃ s ∈ db.reservations, s.status = ReservationStatus.ACTIVE ∧
      s.expiresAt ≤ now ∧ s.id ∈ failIds ∧
      s.productId ∈ db.products.map Product.id) →
    ReservationsCleanupService.expireOverdueReservationsF failIds db now =
      db := by
  rintro db now failIds ⟨s, hmem, hACT, hexp, hfail, hprod⟩
  unfold ReservationsCleanupService.expireOverdueReservationsF
  have hnone := sweepGo_aborts failIds
    (ReservationsCleanupService.overdue db now) db
    ⟨s, by
      unfold ReservationsCleanupService.overdue
      exact List.mem_filter.2 ⟨hmem, decide_eq_true ⟨hACT, hexp⟩⟩,
      hfail, hprod⟩
  rw [hnone]

/-- C7 witness: the pass of the counterexample state with a failure on
reservation 2 commits nothing. -/
theorem sweep_single_transaction_witness :
    ReservationsCleanupService.expireOverdueReservationsF [2]
      ⟨[⟨1, 0⟩], [⟨1, 1, "u1", 2, ReservationStatus.ACTIVE, 0, 10⟩,
        ⟨2, 1, "u2", 3, ReservationStatus.ACTIVE, 0, 10⟩], 3⟩ 100 =
      ⟨[⟨1, 0⟩], [⟨1, 1, "u1", 2, ReservationStatus.ACTIVE, 0, 10⟩,
        ⟨2, 1, "u2", 3, ReservationStatus.ACTIVE, 0, 10⟩], 3⟩ :=
  sweep_single_transaction
    ⟨[⟨1, 0⟩], [⟨1, 1, "u1", 2, ReservationStatus.ACTIVE, 0, 10⟩,
      ⟨2, 1, "u2", 3, ReservationStatus.ACTIVE, 0, 10⟩], 3⟩ 100 [2]
    ⟨⟨2, 1, "u2", 3, ReservationStatus.ACTIVE, 0, 10⟩,
      by decide, rfl, by decide, by decide, by decide⟩

/-- C8 counterexample: on a fresh pair the same call succeeds when the
enqueue succeeds, and returns the scheduler's error — committing nothing,
since an error result means the transaction rolled back — when the enqueue
fails: the stock deduction and the insert are NOT preserved. -/
theorem scheduler_failure_as_stated_false :
    ReservationsService.createReservationQ false ⟨[⟨1, 10⟩], [], 0⟩
      "u1" 1 2 0 =
      Except.ok (⟨0, 1, "u1", 2, ReservationStatus.ACTIVE, 0, 120000⟩,
        ⟨[⟨1, 8⟩], [⟨0, 1, "u1", 2, ReservationStatus.ACTIVE, 0, 120000⟩], 1⟩) ∧
    ReservationsService.createReservationQ true ⟨[⟨1, 10⟩], [], 0⟩
      "u1" 1 2 0 =
      Except.error (SvcError.Infra "Failed to enqueue expiration job") :=
  ⟨rfl, rfl⟩

/-- C8 (amended): the enqueue of the one-shot expiry job is awaited inside
the transaction, so when it fails on the new-reservation branch the whole
`createReservation` call fails with the infrastructure error, and — since
an error aborts the transaction — the stock deduction and the insert are
rolled back rather than committed. -/
theorem scheduler_failure_rolls_back :
    ∀ (db : DB) (u : String) (pid : Nat) (q : Int) (now : Nat)
      (product : Product),
      lookupProduct db.products pid = some product → 0 < q →
      q ≤ product.availableStock →
      lookupActive db.reservations u pid = none →
      ReservationsService.createReservationQ true db u pid q now =
        Except.error (SvcError.Infra "Failed to enqueue expiration job") := by
  intro db u pid q now product hp hq hs he
  simp only [ReservationsService.createReservationQ, hp, he,
    saveProduct_reservations, saveProduct_nextId, if_true]
  rw [if_neg (show ¬ q ≤ 0 by omega),
    if_neg (show ¬ product.availableStock < q by omega)]

/-- C8 witness: concrete failing enqueue on a fresh pair. -/
theorem scheduler_failure_rolls_back_witness :
    ReservationsService.createReservationQ true ⟨[⟨1, 10⟩], [], 0⟩
      "u1" 1 2 0 =
      Except.error (SvcError.Infra "Failed to enqueue expiration job") :=
  scheduler_failure_rolls_back ⟨[⟨1, 10⟩], [], 0⟩ "u1" 1 2 0 ⟨1, 10⟩
    rfl (by decide) (by decide) rfl

/-- C9 counterexample: completing an ACTIVE, non-overdue reservation at
time 50 commits a COMPLETED row that keeps its old `expiresAt` (120000);
the code never sets `expiresAt` to the transition time on the COMPLETED
path, so the claim "expiresAt is set to the time of that transition" for
every terminal transition is false. -/
theorem terminal_expiresAt_as_stated_false :
    ReservationsService.completeReservation
      ⟨[⟨1, 6⟩], [⟨1, 1, "u1", 4, ReservationStatus.ACTIVE, 0, 120000⟩], 2⟩
      1 50 =
      Except.ok (⟨1, 1, "u1", 4, ReservationStatus.COMPLETED, 0, 120000⟩,
        ⟨[⟨1, 6⟩], [⟨1, 1, "u1", 4, ReservationStatus.COMPLETED, 0, 120000⟩],
          2⟩) ∧
    (⟨1, 1, "u1", 4, ReservationStatus.COMPLETED, 0, 120000⟩ :
      Reservation).expiresAt ≠ 50 :=
  ⟨rfl, by decide⟩

/-- C9 (amended): a reservation EXPIRED via `cancelReservation` or
`expireReservation` gets `expiresAt` set to the transition time; a
reservation COMPLETED via `completeReservation` keeps its pre-transition
`expiresAt`; a reservation EXPIRED by the sweep keeps its overdue
`expiresAt` (only the status changes); and once a reservation is terminal
no later operation modifies it, so its `expiresAt` is inert thereafter. -/
theorem terminal_expiresAt_amended :
    (∀ (db : DB) (i now : Nat) (r r' : Reservation) (db' : DB),
      lookupReservation db.reservations i = some r →
      r.status = ReservationStatus.ACTIVE →
      ReservationsService.cancelReservation db i now = Except.ok (r', db') →
      r'.status = ReservationStatus.EXPIRED ∧ r'.expiresAt = now) ∧
    (∀ (db : DB) (i now : Nat) (r : Reservation),
      lookupReservation db.reservations i = some r →
      r.status = ReservationStatus.ACTIVE → r.expiresAt ≤ now →
      (ReservationsServiceB.expireReservation db i now).1 =
        some { r with
          status := ReservationStatus.EXPIRED,
          expiresAt := now }) ∧
    (∀ (db : DB) (i now : Nat) (r r' : Reservation) (db' : DB),
      lookupReservation db.reservations i = some r →
      r.status = ReservationStatus.ACTIVE →
      ReservationsService.completeReservation db i now = Except.ok (r', db') →
      r'.expiresAt = r.expiresAt) ∧
    (∀ (db : DB) (now : Nat) (r : Reservation), WFdb db →
      lookupReservation db.reservations r.id = some r →
      r.status = ReservationStatus.ACTIVE → r.expiresAt ≤ now →
      (lookupProduct db.products r.productId).isSome →
      lookupReservation (ReservationsCleanupService.expireOverdueReservations
        db now).reservations r.id =
        some { r with status := ReservationStatus.EXPIRED }) ∧
    (∀ (db db' : DB) (i : Nat) (r : Reservation), WFdb db →
      Reachable db db' → lookupReservation db.reservations i = some r →
      r.status ≠ ReservationStatus.ACTIVE →
      lookupReservation db'.reservations i = some r) := by
  refine ⟨?_, ?_, ?_, ?_, ?_⟩
  · intro db i now r r' db' hl hA hok
    obtain ⟨rc, hlc, hcase⟩ := cancel_ok hok
    rw [hl] at hlc
    injection hlc with hlc
    subst hlc
    rcases hcase with ⟨hna, _, _⟩ | ⟨_, hr, _⟩
    · exact absurd hA hna
    · subst hr
      exact ⟨rfl, rfl⟩
  · intro db i now r hl hA hexp
    rw [expire_fire hl hA hexp]
  · intro db i now r r' db' hl hA hok
    obtain ⟨rc, hlc, hcase⟩ := complete_ok hok
    rw [hl] at hlc
    injection hlc with hlc
    subst hlc
    rcases hcase with ⟨hc, _, _⟩ | ⟨_, _, hr, _⟩
    · rw [hA] at hc; cases hc
    · subst hr
      rfl
  · intro db now r hwf hl hA hexp hsome
    rw [sweep_eq_foldl]
    refine sweepFold_expires _ db r hl ?_ ?_ hsome
    · unfold ReservationsCleanupService.overdue
      exact List.mem_filter.2 ⟨(lookupReservation_mem hl).1,
        decide_eq_true ⟨hA, hexp⟩⟩
    · have hsub : List.Sublist
          ((ReservationsCleanupService.overdue db now).map Reservation.id)
          (db.reservations.map Reservation.id) :=
        List.Sublist.map _ (List.filter_sublist _)
      exact hwf.2.1.sublist hsub
  · intro db db' i r hwf h hl hterm
    exact reachable_keeps_row h hwf hl hterm

/-- C9 witness: a cancel at time 40 stamps expiresAt 40; a complete at
time 50 keeps expiresAt 120000; a terminal row survives a sweep pass. -/
theorem terminal_expiresAt_amended_witness :
    ((⟨1, 1, "u1", 4, ReservationStatus.EXPIRED, 0, 40⟩ :
        Reservation).status = ReservationStatus.EXPIRED ∧
      (⟨1, 1, "u1", 4, ReservationStatus.EXPIRED, 0, 40⟩ :
        Reservation).expiresAt = 40) ∧
    (⟨1, 1, "u1", 4, ReservationStatus.COMPLETED, 0, 120000⟩ :
      Reservation).expiresAt =
      (⟨1, 1, "u1", 4, ReservationStatus.ACTIVE, 0, 120000⟩ :
        Reservation).expiresAt ∧
    lookupReservation (ReservationsCleanupService.expireOverdueReservations
      ⟨[⟨1, 4⟩], [⟨0, 1, "u1", 2, ReservationStatus.EXPIRED, 0, 33⟩], 1⟩
      50).reservations 0 =
      some ⟨0, 1, "u1", 2, ReservationStatus.EXPIRED, 0, 33⟩ :=
  ⟨terminal_expiresAt_amended.1
      ⟨[⟨1, 6⟩], [⟨1, 1, "u1", 4, ReservationStatus.ACTIVE, 0, 120000⟩], 2⟩
      1 40
      ⟨1, 1, "u1", 4, ReservationStatus.ACTIVE, 0, 120000⟩
      ⟨1, 1, "u1", 4, ReservationStatus.EXPIRED, 0, 40⟩
      ⟨[⟨1, 10⟩], [⟨1, 1, "u1", 4, ReservationStatus.EXPIRED, 0, 40⟩], 2⟩
      (by decide) rfl rfl,
   terminal_expiresAt_amended.2.2.1
      ⟨[⟨1, 6⟩], [⟨1, 1, "u1", 4, ReservationStatus.ACTIVE, 0, 120000⟩], 2⟩
      1 50
      ⟨1, 1, "u1", 4, ReservationStatus.ACTIVE, 0, 120000⟩
      ⟨1, 1, "u1", 4, ReservationStatus.COMPLETED, 0, 120000⟩
      ⟨[⟨1, 6⟩], [⟨1, 1, "u1", 4, ReservationStatus.COMPLETED, 0, 120000⟩], 2⟩
      (by decide) rfl rfl,
   terminal_expiresAt_amended.2.2.2.2
      ⟨[⟨1, 4⟩], [⟨0, 1, "u1", 2, ReservationStatus.EXPIRED, 0, 33⟩], 1⟩
      (ReservationsCleanupService.expireOverdueReservations
        ⟨[⟨1, 4⟩], [⟨0, 1, "u1", 2, ReservationStatus.EXPIRED, 0, 33⟩], 1⟩ 50)
      0 ⟨0, 1, "u1", 2, ReservationStatus.EXPIRED, 0, 33⟩
      (by decide)
      (Relation.ReflTransGen.single (Step.sweep 50
        ⟨[⟨1, 4⟩], [⟨0, 1, "u1", 2, ReservationStatus.EXPIRED, 0, 33⟩], 1⟩))
      (by decide) (by decide)⟩

/-- C10: on an overdue ACTIVE reservation whose product row is missing,
the sweep skips the row entirely — it stays ACTIVE and unchanged, so it is
re-examined on every later pass — while `expireReservation` still marks it
EXPIRED (stamping `expiresAt := now`) and only skips the stock release,
leaving every product row untouched. -/
theorem sweep_vs_expire_missing_product :
    ∀ (db : DB) (now i : Nat) (r : Reservation), WFdb db →
    lookupReservation db.reservations i = some r →
    r.status = ReservationStatus.ACTIVE → r.expiresAt ≤ now →
    lookupProduct db.products r.productId = none →
    lookupReservation (ReservationsCleanupService.expireOverdueReservations
      db now).reservations i = some r ∧
    (ReservationsServiceB.expireReservation db i now).1 =
      some { r with
        status := ReservationStatus.EXPIRED,
        expiresAt := now } ∧
    (ReservationsServiceB.expireReservation db i now).2.products =
      db.products := by
  intro db now i r hwf hl hA hexp hnone
  have hrid : r.id = i := (lookupReservation_mem hl).2
  refine ⟨?_, ?_, ?_⟩
  · rw [sweep_eq_foldl]
    have hl' : lookupReservation db.reservations r.id = some r := by
      rw [hrid]; exact hl
    have hres := sweepFold_dangling
      (ReservationsCleanupService.overdue db now) db r hl'
      (by
        intro s hs hsid
        unfold ReservationsCleanupService.overdue at hs
        exact List.inj_on_of_nodup_map hwf.2.1 (List.mem_filter.1 hs).1
          (lookupReservation_mem hl).1 hsid)
      hnone
    rw [← hrid]
    exact hres
  · rw [expire_fire hl hA hexp]
  · rw [expire_fire hl hA hexp]
    show (saveReservation (releaseStock db r.productId r.quantity)
      { r with
        status := ReservationStatus.EXPIRED,
        expiresAt := now }).products = db.products
    rw [saveReservation_products, releaseStock_of_none hnone]

/-- C10 witness: a dangling reservation (productId 9, no such product)
that is overdue at time 100. -/
theorem sweep_vs_expire_missing_product_witness :
    lookupReservation (ReservationsCleanupService.expireOverdueReservations
      ⟨[⟨5, 3⟩], [⟨1, 9, "u1", 2, ReservationStatus.ACTIVE, 0, 10⟩], 2⟩
      100).reservations 1 =
      some ⟨1, 9, "u1", 2, ReservationStatus.ACTIVE, 0, 10⟩ ∧
    (ReservationsServiceB.expireReservation
      ⟨[⟨5, 3⟩], [⟨1, 9, "u1", 2, ReservationStatus.ACTIVE, 0, 10⟩], 2⟩
      1 100).1 =
      some { (⟨1, 9, "u1", 2, ReservationStatus.ACTIVE, 0, 10⟩ :
        Reservation) with
        status := ReservationStatus.EXPIRED, expiresAt := 100 } ∧
    (ReservationsServiceB.expireReservation
      ⟨[⟨5, 3⟩], [⟨1, 9, "u1", 2, ReservationStatus.ACTIVE, 0, 10⟩], 2⟩
      1 100).2.products =
      (⟨[⟨5, 3⟩], [⟨1, 9, "u1", 2, ReservationStatus.ACTIVE, 0, 10⟩], 2⟩ :
        DB).products :=
  sweep_vs_expire_missing_product
    ⟨[⟨5, 3⟩], [⟨1, 9, "u1", 2, ReservationStatus.ACTIVE, 0, 10⟩], 2⟩
    100 1 ⟨1, 9, "u1", 2, ReservationStatus.ACTIVE, 0, 10⟩
    (by decide) (by decide) rfl (by decide) (by decide)
